import Mathlib

/-!
# PocketBase → AI to Production Pipeline (`script.js`): embedding and verified properties

The page script is embedded as pure functions on an explicit `Page` state
(the document's elements, `localStorage`, the toast calls made so far and the
merge builder's `editors` list).  Browser built-ins the script calls but does
not define (`JSON.parse`, `JSON.stringify`, `toUpperCase`, `Math.random`, …)
are the fields of a `Host` record that every function takes as a parameter.

Strings are Lean strings (sequences of Unicode scalar values); `jsLength`
counts UTF-16 code units, the way the `length` property does.
-/

namespace Pipeline

/-! ## JavaScript strings -/

/-- White space and line terminators, the characters `String.prototype.trim` strips. -/
def isJsWhitespace (c : Char) : Bool :=
  c.val = 0x09 || c.val = 0x0A || c.val = 0x0B || c.val = 0x0C || c.val = 0x0D ||
  c.val = 0x20 || c.val = 0xA0 || c.val = 0x1680 ||
  (0x2000 ≤ c.val && c.val ≤ 0x200A) ||
  c.val = 0x2028 || c.val = 0x2029 || c.val = 0x202F || c.val = 0x205F ||
  c.val = 0x3000 || c.val = 0xFEFF

/-- Strip leading and trailing white space from a list of characters. -/
def trimChars (cs : List Char) : List Char :=
  ((cs.dropWhile isJsWhitespace).reverse.dropWhile isJsWhitespace).reverse

/-- The method `s.trim()`. -/
def jsTrim (s : String) : String := ⟨trimChars s.data⟩

/-- Number of UTF-16 code units of a character. -/
def utf16Units (c : Char) : Nat := if c.val < 0x10000 then 1 else 2

/-- The property `s.length`: the number of UTF-16 code units. -/
def jsLength (s : String) : Nat := (s.data.map utf16Units).sum

/-- The call `s.replace(/c/g, r)` for a single character `c`. -/
def replaceAll (c : Char) (r : String) (s : String) : String :=
  ⟨s.data.flatMap fun x => if x = c then r.data else [x]⟩

/-- Does the character list start with the given prefix? -/
def startsWith : List Char → List Char → Bool
  | _, [] => true
  | [], _ :: _ => false
  | c :: cs, p :: ps => c == p && startsWith cs ps

/-- The call `s.split(",")`, on character lists. -/
def splitComma : List Char → List (List Char)
  | [] => [[]]
  | c :: cs =>
    match splitComma cs with
    | [] => [[c]]
    | w :: ws => if c = ',' then [] :: w :: ws else (c :: w) :: ws

/-- Newline normalisation, as the HTML parser applies it to its input and a
`textarea` to the text read from its `value`: CR LF and CR become LF. -/
def normalizeNewlines : List Char → List Char
  | [] => []
  | '\r' :: '\n' :: rest => '\n' :: normalizeNewlines rest
  | '\r' :: rest => '\n' :: normalizeNewlines rest
  | c :: rest => c :: normalizeNewlines rest

/-! ## JavaScript values and the host environment -/

/-- The JavaScript values the script handles: `undefined` and the values
`JSON.parse` can return.  A number is carried as the text JavaScript prints
for it. -/
inductive JsVal where
  | undefined
  | null
  | bool (b : Bool)
  | num (text : String)
  | str (s : String)
  | arr (items : List JsVal)
  | obj (members : List (String × JsVal))

/-- Browser built-ins used by the script. -/
structure Host where
  /-- The function `JSON.parse`; `none` when it throws a `SyntaxError`. -/
  parse : String → Option JsVal
  /-- The function `JSON.stringify`. -/
  stringify : JsVal → String
  /-- The method `String.prototype.toUpperCase`. -/
  toUpperCase : String → String
  /-- The string a form control of the given tag stores when a non-string
  value is assigned to its `value`. -/
  toDomString : String → JsVal → String
  /-- The value sanitisation of an `input` of the given `type`, applied to a
  text assigned to its `value` (a text input drops line breaks, a number
  input turns a text that is no number into the empty text, …). -/
  sanitize : String → String → String
  /-- The text `Math.random().toString(36).slice(2, 9)` evaluates to at the
  k-th call of `Math.random` in the session. -/
  random : Nat → String
  /-- How a property inherited from `Object.prototype` prints in a template
  literal (`constructor`, `toString`, …); `none` for every other name. -/
  inheritedText : String → Option String

/-- The value of `typeof v === "string"`. -/
def JsVal.isString : JsVal → Bool
  | .str _ => true
  | _ => false

/-- Truthiness, as tested by `if (v)`. -/
def JsVal.truthy : JsVal → Bool
  | .undefined => false
  | .null => false
  | .bool b => b
  | .num t => !(t = "0" || t = "NaN")
  | .str s => !(s = "")
  | .arr _ => true
  | .obj _ => true

/-- One-code-unit strings `s[0]`, `s[1]`, … of a string.  The two halves of a
character outside the Basic Multilingual Plane are lone surrogates, which are
shown as U+FFFD here. -/
def codeUnitStrings (s : String) : List String :=
  s.data.flatMap fun c =>
    if c.val < 0x10000 then [String.singleton c]
    else [String.singleton (Char.ofNat 0xFFFD), String.singleton (Char.ofNat 0xFFFD)]

/-- Number the items of a list with the property names `"0"`, `"1"`, …. -/
def indexed (xs : List JsVal) : List (String × JsVal) :=
  xs.enum.map fun p => (toString p.1, p.2)

/-- The own enumerable properties of a value, in `Object.keys` order, with
their values; `none` where `Object.keys(v)` throws a `TypeError`.  The members
of an object are held in property order with pairwise distinct names, which is
how `JSON.parse` delivers them. -/
def JsVal.ownProps : JsVal → Option (List (String × JsVal))
  | .undefined => none
  | .null => none
  | .bool _ => some []
  | .num _ => some []
  | .str s => some (indexed ((codeUnitStrings s).map JsVal.str))
  | .arr items => some (indexed items)
  | .obj members => some members

/-- The property read `v[name]` for a name that no prototype defines;
`undefined` when `v` has no own property of that name. -/
def JsVal.get (v : JsVal) (name : String) : JsVal :=
  match v.ownProps with
  | some props => (props.lookup name).getD .undefined
  | none => .undefined

/-- The assignment `data[name] = value` of a string to a plain object, given
by its members.  Assigning a string to `__proto__` does nothing. -/
def setProp : List (String × JsVal) → String → JsVal → List (String × JsVal)
  | [], k, v => if k = "__proto__" then [] else [(k, v)]
  | (k', v') :: rest, k, v =>
    if k = "__proto__" then (k', v') :: rest
    else if k' = k then (k', v) :: rest
    else (k', v') :: setProp rest k v

/-! ## The page state -/

/-- An element of the document, with the properties the script reads or writes. -/
structure Element where
  id : String := ""
  tagName : String := "DIV"
  /-- The tokens of `classList`. -/
  classes : List String := []
  /-- The inline style `style.display`. -/
  display : String := ""
  /-- The `value` property; `none` on elements that have none.  What an
  assignment by the script leaves in it depends on the control
  (`acceptedValue`). -/
  value : Option String := none
  /-- The `type` of an `input` element. -/
  inputType : String := "text"
  /-- The values of the options of a `select`, in document order. -/
  options : List String := []
  textContent : String := ""
  /-- The attribute `data-step`. -/
  dataStep : Option String := none
  /-- The attribute `data-show`. -/
  dataShow : Option String := none
  /-- The attribute `name`. -/
  name : String := ""
  checked : Bool := false
  /-- Text of the editor stored in the element's `CodeMirror` property, if any. -/
  codeMirror : Option String := none
deriving DecidableEq, Repr

/-- One entry of the `editors` array: the row's id, the row element it owns,
and the current texts of its file-name input (`e.fname.value`) and of its
editor (`e.cm ? e.cm.getValue() : e.ta.value`). -/
structure Editor where
  id : String
  /-- Identity of the row element created for this entry. -/
  row : Nat
  fname : String
  content : String
deriving DecidableEq, Repr

/-- State of the page. -/
structure Page where
  /-- The elements of the static document, in document order. -/
  elements : List Element := []
  /-- Contents of `localStorage`. -/
  storage : List (String × String) := []
  /-- Calls `toast(msg, type)` made so far, oldest first. -/
  toasts : List (String × String) := []
  /-- The module variable `editors`. -/
  editors : List Editor := []
  /-- The `.file-row` children of `#files`, by row identity, in order.  The
  rows are kept apart from `elements`: the script looks up only ids of the
  static document. -/
  rows : List Nat := []
  /-- Number of row elements created so far. -/
  rowsCreated : Nat := 0
  /-- Number of calls of `Math.random` so far. -/
  randomCalls : Nat := 0
  /-- The flag `window.mergeBuilderInitialized`. -/
  mergeBuilderInitialized : Bool := false
  /-- Whether `window.addFile` has been assigned. -/
  addFileDefined : Bool := false
  /-- Whether `window.CodeMirror` is loaded. -/
  hasCodeMirror : Bool := false
  /-- The property `navigator.onLine`. -/
  online : Bool := true
deriving DecidableEq, Repr

/-- The call `document.getElementById(id)`. -/
def getElementById (pg : Page) (id : String) : Option Element :=
  pg.elements.find? fun el => el.id = id

/-- Apply `f` to the first element satisfying `p`: a mutation of the element
`document.querySelector` returns. -/
def updateFirst (p : Element → Bool) (f : Element → Element) : List Element → List Element
  | [] => []
  | el :: els => if p el then f el :: els else el :: updateFirst p f els

/-- Mutate the element `document.getElementById(id)` returns. -/
def Page.update (pg : Page) (id : String) (f : Element → Element) : Page :=
  { pg with elements := updateFirst (fun el => el.id = id) f pg.elements }

/-- The call `el.classList.add(c)`. -/
def addClass (c : String) (el : Element) : Element :=
  if c ∈ el.classes then el else { el with classes := el.classes ++ [c] }

/-- The call `el.classList.remove(c)`. -/
def removeClass (c : String) (el : Element) : Element :=
  { el with classes := el.classes.filter fun x => x ≠ c }

/-- The tokens of a `className` string. -/
def classTokens (s : String) : List String :=
  ((s.data.splitOn ' ').filter fun w => w ≠ []).map String.mk

/-- The call `safeValue(id)`: `el?.value?.trim?.() || ""`. -/
def safeValue (pg : Page) (id : String) : String :=
  match getElementById pg id with
  | some el =>
    match el.value with
    | some v => jsTrim v
    | none => ""
  | none => ""

/-- The table `STORAGE_KEYS`; `none` is `undefined`. -/
def STORAGE_KEYS (name : String) : Option String :=
  if name = "p0" then some "pb_pipeline_stage0"
  else if name = "p1" then some "pb_pipeline_stage1"
  else if name = "p2" then some "pb_pipeline_stage2"
  else if name = "p3" then some "pb_pipeline_stage3"
  else if name = "p4" then some "pb_pipeline_stage4"
  else if name = "p5" then some "pb_pipeline_stage5"
  else if name = "theme" then some "pb_pipeline_dark"
  else if name = "mergeFiles" then some "pb_pipeline_merge_files"
  else none

/-- The call `toast(msg, type)`, recorded as a notification; rendering it
into the `#toast` element is not part of the model. -/
def toast (pg : Page) (msg : String) (type : String) : Page :=
  { pg with toasts := pg.toasts ++ [(msg, type)] }

/-- The call `localStorage.getItem(key)`. -/
def getItem (pg : Page) (key : String) : Option String :=
  pg.storage.lookup key

/-- Replace or add an entry of the store. -/
def putItem : List (String × String) → String → String → List (String × String)
  | [], k, v => [(k, v)]
  | (k', v') :: rest, k, v => if k' = k then (k', v) :: rest else (k', v') :: putItem rest k v

/-- The call `localStorage.setItem(key, value)`. -/
def setItem (pg : Page) (key value : String) : Page :=
  { pg with storage := putItem pg.storage key value }

/-- The call `localStorage.removeItem(key)`. -/
def removeItem (pg : Page) (key : String) : Page :=
  { pg with storage := pg.storage.filter fun kv => kv.1 ≠ key }

/-! ## Saving and loading stage records -/

/-- The function `saveStageData(stageKey, data)`. -/
def saveStageData (host : Host) (stageKey : String) (data : JsVal) (pg : Page) : Page :=
  setItem pg stageKey (host.stringify data)

/-- The string a value assigned to the `value` of a form control is converted to. -/
def domString (host : Host) (tagName : String) : JsVal → String
  | .str s => s
  | v => host.toDomString tagName v

/-- Does the assignment `el.value = s` throw?  It does on a file input, for
every text but the empty one (`InvalidStateError`). -/
def valueThrows (el : Element) (s : String) : Bool :=
  el.tagName = "INPUT" && el.inputType = "file" && s ≠ ""

/-- The text `el.value` holds once the assignment `el.value = s` has returned.
A `select` selects its first option whose value is `s`, and is left without a
selected option, its value empty, when it has none; an `input` runs the value
sanitisation of its type, and a file input stays empty; a `textarea`
normalises line breaks; on any other element `value` is an ordinary property. -/
def acceptedValue (host : Host) (el : Element) (s : String) : String :=
  if el.tagName = "SELECT" then
    if s ∈ el.options then s else ""
  else if el.tagName = "INPUT" then
    if el.inputType = "file" then "" else host.sanitize el.inputType s
  else if el.tagName = "TEXTAREA" then ⟨normalizeNewlines s.data⟩
  else s

/-- The element once the assignment `el.value = v` has returned. -/
def setValue (host : Host) (el : Element) (v : JsVal) : Element :=
  { el with value := some (acceptedValue host el (domString host el.tagName v)) }

/-- The test `v === undefined`. -/
def JsVal.isUndefined : JsVal → Bool
  | .undefined => true
  | _ => false

/-- The `TEXTAREA` branch of the callback of `loadStageData`, on the element:
`el.value = v`, then `el.CodeMirror.setValue(el.value)` when `window.CodeMirror`
(`cm`) and `el.CodeMirror` exist. -/
def restoreTextarea (host : Host) (cm : Bool) (el : Element) (v : JsVal) : Element :=
  let e1 := setValue host el v
  if cm ∧ e1.codeMirror.isSome then { e1 with codeMirror := e1.value } else e1

/-- The body of the `forEach` callback of `loadStageData` for one key `id`
with value `v = data[id]`: the page after it, or `none` when the assignment
to `el.value` throws. -/
def restoreField (host : Host) (pg : Page) (id : String) (v : JsVal) : Option Page :=
  match getElementById pg id with
  | none => some pg
  | some el =>
    if v.isUndefined then some pg
    else if el.tagName = "SELECT" ∨ el.tagName = "INPUT" then
      if valueThrows el (domString host el.tagName v) then none
      else some (pg.update id fun e => setValue host e v)
    else if el.tagName = "TEXTAREA" then
      some (pg.update id fun e => restoreTextarea host pg.hasCodeMirror e v)
    else some pg

/-- One turn of the loop of `loadStageData`: the callback applied to the key
`id` of a value whose own properties are `props`. -/
def restoreStep (host : Host) (props : List (String × JsVal)) (pg : Page) (id : String) :
    Option Page :=
  match props.lookup id with
  | some v => restoreField host pg id v
  | none => some pg

/-- A loop `ids.forEach(…)` whose callback may throw (`none`): an exception
ends the loop, and what the earlier turns wrote stays.  The flag tells whether
the loop ran to its end. -/
def forEachField (step : Page → String → Option Page) : List String → Page → Page × Bool
  | [], pg => (pg, true)
  | id :: ids, pg =>
    match step pg id with
    | some pg1 => forEachField step ids pg1
    | none => (pg, false)

/-- The loop `Object.keys(data).forEach(…)` of `loadStageData`, over the
own properties `props` of `data`. -/
def restoreFields (host : Host) (props : List (String × JsVal)) (pg : Page) : Page × Bool :=
  forEachField (restoreStep host props) (props.map Prod.fst) pg

/-- The function `loadStageData` up to the exceptions thrown before its loop:
`.error` is an exception of `JSON.parse` or of `Object.keys`, thrown before any
field has been written.  An exception thrown inside the loop is caught by the
`catch` block as well: the fields written before it keep what they were given
and `null` is returned (`none` is `null`). -/
def loadStageDataBody (host : Host) (stageKey : String) (pg : Page) :
    Except String (Page × Option JsVal) :=
  match getItem pg stageKey with
  | none => .ok (pg, none)
  | some saved =>
    if saved = "" then .ok (pg, none)
    else
      match host.parse saved with
      | none => .error "SyntaxError"
      | some data =>
        match data.ownProps with
        | none => .error "TypeError"
        | some props =>
          match restoreFields host props pg with
          | (pg1, true) => .ok (pg1, some data)
          | (pg1, false) => .ok (pg1, none)

/-- The function `loadStageData(stageKey)`: the `catch` block logs and returns `null`. -/
def loadStageData (host : Host) (stageKey : String) (pg : Page) : Page × Option JsVal :=
  match loadStageDataBody host stageKey pg with
  | .ok r => r
  | .error _ => (pg, none)

/-- The record the `input` listener of `autoSaveStage` builds:
`data[f] = safeValue(f)` for every declared field. -/
def snapshot (pg : Page) (fields : List String) : List (String × JsVal) :=
  fields.foldl (fun data f => setProp data f (.str (safeValue pg f))) []

/-- The `input` listener that `autoSaveStage(stageKey, fields)` attaches to
every declared field present in the document. -/
def autoSaveInput (host : Host) (stageKey : String) (fields : List String) (pg : Page) : Page :=
  saveStageData host stageKey (.obj (snapshot pg fields)) pg

/-- The field list passed to `autoSaveStage` for stage 0. -/
def stage0Fields : List String :=
  ["screenName", "featureDesc", "components", "collections", "reusable", "designGuide",
   "role", "output0"]

/-- The field list passed to `autoSaveStage` for each of the stages 2–5. -/
def stageFields : List String :=
  ["project", "module", "serviceName", "useCase", "dependencies", "constraints", "code",
   "language", "security", "style", "projectType", "customProjectType"]

/-- A user edit of a form field: the field's value becomes `v`. -/
def editField (pg : Page) (id : String) (v : String) : Page :=
  pg.update id fun e => { e with value := some v }

/-- The key `STORAGE_KEYS.p0`. -/
def stage0Key : String := "pb_pipeline_stage0"

/-- The function `saveStage0()`. -/
def saveStage0 (host : Host) (pg : Page) : Page :=
  let data : List (String × JsVal) :=
    [("screen", .str (safeValue pg "screenName")),
     ("feature", .str (safeValue pg "featureDesc")),
     ("comps", .str (safeValue pg "components")),
     ("collections", .str (safeValue pg "collections")),
     ("reusable", .str (safeValue pg "reusable")),
     ("designGuide", .str (safeValue pg "designGuide")),
     ("role", .str (safeValue pg "role")),
     ("output", .str (safeValue pg "output0"))]
  toast (saveStageData host stage0Key (.obj data) pg) "Stage 0 saved." "ok"

/-- The assignment `$(id).value = v`: the page after it, or `none` when it
throws (the element does not exist, or it refuses the text). -/
def assignValue (host : Host) (pg : Page) (id : String) (v : JsVal) : Option Page :=
  match getElementById pg id with
  | none => none
  | some el =>
    if valueThrows el (domString host el.tagName v) then none
    else some (pg.update id fun e => setValue host e v)

/-- The callback of the `forEach` in `loadStage0`:
`if (el && data[id] !== undefined) el.value = data[id]`; `none` when the
assignment throws. -/
def loadStage0Field (host : Host) (data : JsVal) (pg : Page) (id : String) : Option Page :=
  match getElementById pg id, data.get id with
  | none, _ => some pg
  | some _, .undefined => some pg
  | some _, v => assignValue host pg id v

/-- The function `loadStage0()`.  The flag is `false` when the call ends in
an uncaught exception (`$("output0")` is `null`, or an assignment to a
`value` throws). -/
def loadStage0 (host : Host) (pg : Page) : Page × Bool :=
  match loadStageData host stage0Key pg with
  | (pg1, some data) =>
    if data.truthy then
      match forEachField (loadStage0Field host data)
          ["screenName", "featureDesc", "components", "collections", "reusable", "designGuide",
           "role"] pg1 with
      | (pg2, false) => (pg2, false)
      | (pg2, true) =>
        match data.get "output" with
        | .undefined => (toast pg2 "Stage 0 loaded." "ok", true)
        | v =>
          match assignValue host pg2 "output0" v with
          | none => (pg2, false)
          | some pg3 => (toast pg3 "Stage 0 loaded." "ok", true)
    else (toast pg1 "No saved data for Stage 0." "error", true)
  | (pg1, none) => (toast pg1 "No saved data for Stage 0." "error", true)

/-! ## Prompt templates -/

/-- The function `escapeHtml(text)`. -/
def escapeHtml : JsVal → String
  | .str text =>
    replaceAll (Char.ofNat 39) "&#039;"
      (replaceAll (Char.ofNat 34) "&quot;"
        (replaceAll '>' ">"
          (replaceAll '<' "<"
            (replaceAll '&' "&amp;" text))))
  | _ => ""

/-- Concatenation of the pieces of a template literal. -/
def template (pieces : List String) : String :=
  ⟨pieces.flatMap String.data⟩

/-- The function `capitalize(str)`: `str.charAt(0).toUpperCase() + str.slice(1)`.
When the first character is outside the Basic Multilingual Plane, `charAt(0)`
is a lone surrogate, which `toUpperCase` leaves alone, and the result is `str`. -/
def capitalize (host : Host) (str : String) : String :=
  match str.data with
  | [] => ""
  | c :: cs => if c.val < 0x10000 then host.toUpperCase (String.singleton c) ++ ⟨cs⟩ else str

/-- The template literal of `generatePrompt`, before `.trim()`. -/
def stage0Template (host : Host)
    (screen feature comps collections reusable designGuide role : String) : String :=
  template
    ["\n",
    "You are an expert frontend engineer. I want you to build the **", escapeHtml (.str screen),
    "** screen in **React with Tailwind CSS**. All logics and components must be production-ready enterprise-grade not simulated placeholder codes. Use lucide-react as the default ui component library.\n",
    "\n",
    "🔧 Folder Structure for the ", capitalize host role, " Section:\n",
    "- /", role, "\n",
    "  - /components → Shared components (e.g., Modal, Toast, Card, Table, etc.)\n",
    "  - /contexts → React contexts if needed\n",
    "  - /hooks → Custom React hooks\n",
    "  - /pages → The main screen/page component\n",
    "  - /services → PocketBase integration logic (API calls)\n",
    "  - index.js → Exports everything\n",
    "\n",
    "📊 Requirements:\n",
    "- DO NOT combine everything in a single file.\n",
    "- EACH component (", comps, ") must be in its own file under `/", role, "/components`.\n",
    "- Place the screen\x27s main page logic in `/", role, "/pages/", screen, ".jsx`\n",
    "- Use `/", role, "/hooks` or `/", role, "/services` as needed.\n",
    "- Use named exports and proper imports.\n",
    "- When updating existing components in follow-up responses, use the exact same filename to maintain version history in the code extractor.\n",
    "\n",
    "💡 Screen Summary:\n",
    "- Role: **", role, "**\n",
    "- Screen: **", screen, "**\n",
    "- Feature: **", feature, "**\n",
    "- Required Components: **", comps, "**\n",
    "- Use PocketBase collections: **", collections, "**\n",
    "- Implement actual enterprise-grade data fetching using pocketbase with async hooks in `/",
    role, "/services`\n",
    "\n",
    "🎨 UI Guidelines (Manually Specified):\n",
    designGuide, "\n",
    "\n",
    "📦 Reuse Guidance (Manually Listed):\n",
    reusable, "\n",
    "\n",
    "📦 Output Format:\n",
    "- Output each component or file one at a time in this format:\n",
    "```jsx filename:/", role, "/components/ComponentName.jsx\n",
    "// Component code here\n",
    "// When updating this component later, use the same filename to maintain version history\n",
    "```\n",
    "\n",
    "⚠️ Important for Versioning:\n",
    "- ALWAYS use the `filename:` parameter in code blocks\n",
    "- Use the exact same filename when updating existing components\n",
    "- Only change filenames for major refactors or new components\n",
    "- This ensures proper version tracking in the chat code extractor\n",
    "\n",
    "✅ Start by outputting `/", role, "/pages/", screen,
    ".jsx` and one shared component like a Modal or Table. Wait for feedback before continuing.\n"]

/-- The function `generatePrompt()` of `script.js` (stage 0). -/
def generatePrompt (host : Host) (pg : Page) : Page :=
  let screen := safeValue pg "screenName"
  let feature := safeValue pg "featureDesc"
  let comps := safeValue pg "components"
  let collections := safeValue pg "collections"
  let reusable := safeValue pg "reusable"
  let designGuide := safeValue pg "designGuide"
  let role := if safeValue pg "role" = "" then "admin" else safeValue pg "role"
  if screen = "" then toast pg "Please enter a screen name." "error"
  else
    let prompt :=
      jsTrim (stage0Template host screen feature comps collections reusable designGuide role)
    let written :=
      match getElementById pg "output0" with
      | some _ => assignValue host pg "output0" (.str prompt)
      | none => some pg
    match written with
    | some pg1 => toast pg1 "Prompt generated." "ok"
    | none => toast pg "Failed to generate prompt." "error"

/-- The record `ctx()` returns. -/
structure Ctx where
  project : String
  module : String
  serviceName : String
  language : String
  collections : String
  security : String
  style : String
  constraints : String
  code : String
  useCase : String
  projectType : String
  dependencies : String
deriving DecidableEq, Repr

/-- The expression `a || b` on strings. -/
def orElse (a b : String) : String := if a = "" then b else a

/-- The lookup `{ saas: …, … }[key] || "custom project"` of `ctx`, as the
text it contributes to a template. -/
def projectTypeText (host : Host) (key : String) : String :=
  if key = "saas" then "SaaS platform with subscriptions and billing"
  else if key = "delivery" then
    "Delivery/logistics app with agents, zones, and realtime tracking"
  else if key = "marketplace" then "Two-sided marketplace with buyers and sellers"
  else if key = "admin" then "Internal admin dashboard with audit and controls"
  else if key = "social" then "Social app with feeds, notifications, and user content"
  else
    match host.inheritedText key with
    | some t => t
    | none => "custom project"

/-- The function `ctx()`. -/
def ctx (host : Host) (pg : Page) : Ctx :=
  { project := orElse (safeValue pg "project") "My Project"
    module := orElse (safeValue pg "module") "core"
    serviceName := orElse (safeValue pg "serviceName") "service.js"
    language := orElse (safeValue pg "language") "go"
    collections := orElse (safeValue pg "collections") "records"
    security := orElse (safeValue pg "security") "standard"
    style := orElse (safeValue pg "style") "js"
    constraints := safeValue pg "constraints"
    code := safeValue pg "code"
    useCase := safeValue pg "useCase"
    projectType :=
      if safeValue pg "projectType" = "custom" then
        orElse (safeValue pg "customProjectType") "custom project"
      else projectTypeText host (safeValue pg "projectType")
    dependencies := orElse (safeValue pg "dependencies") "high" }

/-- The function `prompt2(c)`. -/
def prompt2 (c : Ctx) : String :=
  template
    ["ROLE: You are a code archaeologist.\n",
    "INPUTS:\n",
    "- Project: ", c.project, "\n",
    "- Module: ", c.module, "\n",
    "- File: ", c.serviceName, "\n",
    "- Collections: ", c.collections, "\n",
    "- Project type: ", c.projectType, "\n",
    "- Stated goal: ", (if c.useCase = "" then "Not specified" else c.useCase), "\n",
    "- Dependency level: ", c.dependencies, "\n",
    "- Merged service code:\n",
    "\n",
    "```jsx filename:", c.serviceName, "\n",
    c.code, "\n",
    "```\n",
    "\n",
    "OBJECTIVE:\n",
    "Identify all business logic touching PocketBase.\n",
    "\n",
    "VERSIONING INSTRUCTIONS:\n",
    "- When referencing this file in your analysis, use the exact filename: ", c.serviceName,
    "\n",
    "- This ensures proper tracking in the version control system\n",
    "- If you reference other files, use their full path with the `filename:` parameter\n",
    "\n",
    "DELIVERABLES:\n",
    "A. \"Business Logic Found\"\n",
    "B. \"Data Flow\"\n",
    "C. \"Risks\"\n",
    "D. \"Cron Opportunities\"\n",
    "\n",
    "DO NOT:\n",
    "- Suggest fixes\n",
    "- Propose hooks\n",
    "- Refactor code\n",
    "\n",
    "Just report what exists. When documenting findings, reference files using the format:\n",
    "```filename:path/to/file.jsx\n",
    "// Reference to specific file\n",
    "```"]

/-- The function `prompt3(c)`. -/
def prompt3 (c : Ctx) : String :=
  template
    ["ROLE: You are a PocketBase cron architect.\n",
    "INPUTS:\n",
    "- Project: ", c.project, "\n",
    "- Module: ", c.module, "\n",
    "- File: ", c.serviceName, "\n",
    "- Collections: ", c.collections, "\n",
    "- This service is \"", c.dependencies, "\" dependency —\n",
    "  ",
    (if c.dependencies = "high" then "CRITICAL — do NOT remove endpoints. Instead, make them call cron jobs internally." else "Safe to restructure, but preserve API shape."),
    "\n",
    "- Code:\n",
    "\n",
    "```jsx filename:", c.serviceName, "\n",
    c.code, "\n",
    "```\n",
    "\n",
    "OBJECTIVE:\n",
    "Detect and extract scheduled logic.\n",
    "\n",
    "VERSIONING GUIDELINES:\n",
    "- When creating new cron job files, use descriptive filenames with the `filename:` parameter\n",
    "- When modifying existing files, use the exact same filename (", c.serviceName,
    ") to maintain version history\n",
    "- All new files should follow the project\x27s folder structure: /", c.module,
    "/services/crons/\n",
    "- This ensures proper tracking in the version control system\n",
    "\n",
    "DELIVERABLES:\n",
    "A. \"Cron Opportunities\"\n",
    "B. \"Cron Job Code\" (use `filename:` parameter for each new cron file)\n",
    "C. \"Stripped Service\" (maintain original filename: ", c.serviceName, ")\n",
    "D. \"API Plan\"\n",
    "E. \"Migration\"\n",
    "\n",
    "OUTPUT FORMAT:\n",
    "For each deliverable, use the appropriate format:\n",
    "```filename:path/to/new/cron-job.jsx\n",
    "// Cron job code\n",
    "```\n",
    "```filename:", c.serviceName, "\n",
    "// Modified service code (preserve filename for version tracking)\n",
    "```\n",
    "\n",
    "DO NOT:\n",
    "- Remove existing endpoints\n",
    "- Change response shapes\n",
    "- Use generic filenames like \"cron1.js\" or \"utility.js\"\n",
    "- Omit the `filename:` parameter in code blocks"]

/-- The function `prompt4(c)`. -/
def prompt4 (host : Host) (c : Ctx) : String :=
  template
    ["ROLE: You are a PocketBase migration engineer.\n",
    "INPUTS:\n",
    "- Project: ", c.project, "\n",
    "- Module: ", c.module, "\n",
    "- File: ", c.serviceName, "\n",
    "- Language: ", host.toUpperCase c.language, "\n",
    "- This service is \"", c.dependencies, "\" dependency — ",
    (if c.dependencies = "high" then "CRITICAL — used across the app. Migration must be backward-compatible." else "safe to modify."),
    "\n",
    "- Business logic (from Stage 2):\n",
    "\n",
    "```", c.language, " filename:", c.serviceName, "\n",
    c.constraints, "\n",
    "```\n",
    "\n",
    "OBJECTIVE:\n",
    "Move logic into pb_hooks.\n",
    "\n",
    "VERSIONING REQUIREMENTS:\n",
    "- When creating new hook files, use the `filename:` parameter with proper paths: /pb_hooks/FILENAME.js\n",
    "- When modifying the original service, use the exact same filename (", c.serviceName,
    ") to maintain version history\n",
    "- All new files must follow the standard structure: /pb_hooks/collections/, /pb_hooks/mails/, /pb_hooks/realtime/, etc.\n",
    "- This ensures proper tracking in the version control system\n",
    "\n",
    "DELIVERABLES:\n",
    "1. \"Extraction Map\" - Map showing what logic moves where\n",
    "2. \"Folder Structure\" - Complete structure with all new files\n",
    "3. \"pb_hooks Snippet\" (use `filename:` parameter for each hook file)\n",
    "4. \"Client Service\" - Updated client service (maintain original filename: ", c.serviceName,
    ")\n",
    "5. \"Migration Steps\" - Step-by-step guide\n",
    "\n",
    "OUTPUT FORMAT:\n",
    "For code deliverables, use the appropriate format:\n",
    "```js filename:pb_hooks/collections/", c.module, ".js\n",
    "// Hook implementation\n",
    "```\n",
    "```", c.language, " filename:", c.serviceName, "\n",
    "// Updated service code (preserve filename for version tracking)\n",
    "```\n",
    "```js filename:pb_hooks/mails/notifications.js\n",
    "// Mail hook implementation\n",
    "```\n",
    "\n",
    "DO NOT:\n",
    "- Harden code\n",
    "- Suggest cron jobs\n",
    "- Use generic filenames like \"hook1.js\" or \"utility.js\"\n",
    "- Omit the `filename:` parameter in code blocks\n",
    "- Change the original filename when updating existing services"]

/-- The function `prompt5(c)`. -/
def prompt5 (c : Ctx) : String :=
  template
    ["ROLE: You are a code quality auditor.\n",
    "INPUTS:\n",
    "- Project: ", c.project, "\n",
    "- Module: ", c.module, "\n",
    "- File: ", c.serviceName, "\n",
    "- Security: ", c.security, "\n",
    "- This code is \"", c.dependencies, "\" dependency —\n",
    "  ",
    (if c.dependencies = "high" then "HIGH-IMPACT — many components depend on it. Only fix, never change behavior." else "safe to improve as it has limited dependencies."),
    "\n",
    "- Code:\n",
    "\n",
    "```filename:", c.serviceName, "\n",
    c.code, "\n",
    "```\n",
    "\n",
    "OBJECTIVE:\n",
    "Make this code production-ready.\n",
    "\n",
    "VERSIONING INSTRUCTIONS:\n",
    "- When returning refactored code, use the exact same filename (", c.serviceName,
    ") to maintain version history\n",
    "- This ensures proper tracking in the version control system and allows comparison between versions\n",
    "- All code blocks must include the `filename:` parameter\n",
    "- Do not change the file extension unless absolutely necessary for the fixes\n",
    "\n",
    "DELIVERABLES:\n",
    "A. \"Audit\" - Comprehensive code quality assessment\n",
    "B. \"Refactored Code\" (use same filename: ", c.serviceName, " for version tracking)\n",
    "C. \"Test Ideas\" - Suggestions for unit and integration tests\n",
    "\n",
    "OUTPUT FORMAT:\n",
    "For code deliverables, use the format:\n",
    "```filename:", c.serviceName, "\n",
    "// Refactored code - maintain original filename for version tracking\n",
    "```\n",
    "\n",
    "DO NOT:\n",
    "- Move logic to backend\n",
    "- Suggest cron jobs\n",
    "- Change the original filename\n",
    "- Omit the `filename:` parameter in code blocks\n",
    "- Modify the behavior of high-dependency code"]

/-- The test `!code || code.trim().length < 10` of `requireCode`. -/
def codeTooShort (code : String) : Bool :=
  code = "" || jsLength (jsTrim code) < 10

/-- The function `requireCode()`: the page after the call and the value returned. -/
def requireCode (host : Host) (pg : Page) : Page × Bool :=
  if codeTooShort (ctx host pg).code then
    (toast pg "Please paste code to analyze (at least 10 characters)." "error", false)
  else (pg, true)

/-- The function `safeGenerate(genFn, outId)`.  The class `generated` is added
to the output element; its removal by a timer two seconds later is not part of
the model. -/
def safeGenerate (host : Host) (genFn : Ctx → String) (outId : String) (pg : Page) : Page :=
  match requireCode host pg with
  | (pg1, false) => pg1
  | (pg1, true) =>
    let txt := genFn (ctx host pg1)
    match getElementById pg1 outId with
    | none => toast pg1 "Failed to generate prompt. Check console." "error"
    | some _ =>
      toast (pg1.update outId fun e => addClass "generated" { e with textContent := txt })
        "Prompt generated." "ok"

/-- The template functions `window["prompt" + id]` of stages 2–5. -/
def stagePrompt (host : Host) (id : Nat) : Option (Ctx → String) :=
  if id = 2 then some prompt2
  else if id = 3 then some prompt3
  else if id = 4 then some (prompt4 host)
  else if id = 5 then some prompt5
  else none

/-! ## The merge builder (stage 1) -/

/-- The HTML tokenizer's decoding of the three character references
`escapeHtml` emits (`&amp;`, `&quot;`, `&#039;`); no other reference occurs in
its output, where every ampersand starts one of these three. -/
def decodeEntities : List Char → List Char
  | [] => []
  | '&' :: 'a' :: 'm' :: 'p' :: ';' :: rest => '&' :: decodeEntities rest
  | '&' :: 'q' :: 'u' :: 'o' :: 't' :: ';' :: rest => Char.ofNat 34 :: decodeEntities rest
  | '&' :: '#' :: '0' :: '3' :: '9' :: ';' :: rest => Char.ofNat 39 :: decodeEntities rest
  | c :: rest => c :: decodeEntities rest

/-- Does the input start with an end tag of `textarea`: the characters
`</textarea` in any letter case, followed by white space, `/` or `>`? -/
def isTextareaEnd (l : List Char) : Bool :=
  startsWith ((l.take 10).map Char.toLower) "</textarea".data &&
  match l.drop 10 with
  | c :: _ => c.val = 0x09 || c.val = 0x0A || c.val = 0x0C || c.val = 0x20 || c = '/' || c = '>'
  | [] => false

/-- The part of the input the tokenizer reads as the text of a `textarea`:
everything before the first end tag of `textarea`. -/
def rcdataBody : List Char → List Char
  | [] => []
  | c :: rest => if isTextareaEnd (c :: rest) then [] else c :: rcdataBody rest

/-- The tree builder drops a line feed that directly follows `<textarea>`. -/
def dropLeadingLF : List Char → List Char
  | '\n' :: rest => rest
  | l => l

/-- The tokenizer replaces U+0000 by U+FFFD in element text and attribute values. -/
def replaceNul (l : List Char) : List Char :=
  l.map fun c => if c.val = 0 then Char.ofNat 0xFFFD else c

/-- The text of the row's `textarea` after
`row.innerHTML = … <textarea>` + src + `</textarea> …` has been parsed. -/
def textareaValue (src : String) : String :=
  ⟨dropLeadingLF (decodeEntities (rcdataBody (replaceNul (normalizeNewlines src.data))))⟩

/-- The value of the row's `input type="text" class="fname"` after
`row.innerHTML = … value="` + src + `" …` has been parsed: the attribute value
runs to the first double quote, and a text input strips line breaks. -/
def fnameValue (src : String) : String :=
  ⟨(decodeEntities ((replaceNul (normalizeNewlines src.data)).takeWhile
      fun c => c ≠ Char.ofNat 34)).filter fun c => c ≠ '\n' ∧ c ≠ '\r'⟩

/-- The key `STORAGE_KEYS.mergeFiles`. -/
def mergeFilesKey : String := "pb_pipeline_merge_files"

/-- The list `files` of `updateStats` and `buildPrompt`: file name (or
`unnamed`) and content of every entry with non-empty content. -/
def mergeFiles (pg : Page) : List (String × String) :=
  (pg.editors.map fun e => (orElse (jsTrim e.fname) "unnamed", e.content)).filter
    fun f => jsLength f.2 > 0

/-- The value of `Math.ceil(chars / 4)`. -/
def tokenEstimate (chars : Nat) : Nat := (chars + 3) / 4

/-- The class suffix `tokens > 32000 ? "danger" : tokens > 16000 ? "" : "ok"`. -/
def tokenBadge (tokens : Nat) : String :=
  if tokens > 32000 then "danger" else if tokens > 16000 then "" else "ok"

/-- The function `updateStats()`. -/
def updateStats (pg : Page) : Page :=
  let files := mergeFiles pg
  let chars := files.foldl (fun sum f => sum + jsLength f.2) 0
  let tokens := tokenEstimate chars
  let pg1 := pg.update "file-count" fun e => { e with textContent := toString files.length }
  let pg2 := pg1.update "char-count" fun e => { e with textContent := toString chars }
  pg2.update "token-estimate" fun e =>
    { e with textContent := toString tokens, classes := classTokens ("badge " ++ tokenBadge tokens) }

/-- The function `scanDuplicates()`: it only writes a fixed hint into `#dup-list`. -/
def scanDuplicates (pg : Page) : Page :=
  pg.update "dup-list" fun e => { e with textContent := "Run \"Re-scan\" to detect duplicates." }

/-- The function `saveFiles()`. -/
def saveFiles (host : Host) (pg : Page) : Page :=
  let files := pg.editors.map fun e =>
    JsVal.obj [("name", .str e.fname), ("content", .str e.content)]
  setItem pg mergeFilesKey (host.stringify (.arr files))

/-- A default parameter `x = ""`. -/
def defaultEmpty : JsVal → JsVal
  | .undefined => .str ""
  | v => v

/-- The function `window.addFile(name = "", content = "")`: the page after the
call and the id returned (`none` is `undefined`, after the `catch` block). -/
def addFile (host : Host) (name content : JsVal) (pg : Page) : Page × Option String :=
  let name := defaultEmpty name
  let content := defaultEmpty content
  let id := "f" ++ host.random pg.randomCalls
  let row := pg.rowsCreated
  let pg1 :=
    { pg with
      randomCalls := pg.randomCalls + 1
      rowsCreated := pg.rowsCreated + 1
      rows := pg.rows ++ [row] }
  if pg.hasCodeMirror ∧ ¬ name.isString then
    -- `name.split` throws
    (toast pg1 "Failed to add file." "error", none)
  else
    let editor : Editor :=
      { id := id
        row := row
        fname := fnameValue (escapeHtml name)
        content := textareaValue (escapeHtml content) }
    let pg2 := { pg1 with editors := pg1.editors ++ [editor] }
    (saveFiles host (scanDuplicates (updateStats pg2)), some id)

/-- The click listener of the `Remove` button of the row `row` with id `id`. -/
def removeClick (host : Host) (row : Nat) (id : String) (pg : Page) : Page :=
  let pg1 :=
    { pg with
      rows := pg.rows.filter fun r => r ≠ row
      editors := pg.editors.filter fun e => e.id ≠ id }
  toast (saveFiles host (scanDuplicates (updateStats pg1))) "File removed." "ok"

/-- The click listener of `#clear-files`; `confirmed` is the answer to
`confirm("Clear all files?")`. -/
def clearClick (confirmed : Bool) (pg : Page) : Page :=
  if confirmed then
    let pg1 := { pg with rows := [], editors := [] }
    toast (removeItem (scanDuplicates (updateStats pg1)) mergeFilesKey) "All files cleared." "ok"
  else pg

/-- The function `updateNetwork()`. -/
def updateNetwork (pg : Page) : Page :=
  let pg1 := pg.update "dot" fun e =>
    { e with classes := classTokens ("dot " ++ if pg.online then "online" else "offline") }
  pg1.update "net-text" fun e =>
    { e with textContent := if pg.online then "online" else "offline (working from cache)" }

/-- The loop `files.forEach((f) => addFile(f.name, f.content))` once `addFile`
is bound; reading a property of `null` throws and ends the loop. -/
def restoreSaved (host : Host) : List JsVal → Page → Page
  | [], pg => pg
  | .null :: _, pg => pg
  | .undefined :: _, pg => pg
  | f :: rest, pg => restoreSaved host rest (addFile host (f.get "name") (f.get "content") pg).1

/-- The block `// Load saved files` of `initMergeBuilder`.  It runs before
`window.addFile` is assigned: with `addFile` unbound the first callback throws
a `ReferenceError`, which the `catch` block swallows. -/
def loadSavedFiles (host : Host) (pg : Page) : Page :=
  match getItem pg mergeFilesKey with
  | none => pg
  | some savedFiles =>
    if savedFiles = "" then pg
    else
      match host.parse savedFiles with
      | some (.arr files) => if pg.addFileDefined then restoreSaved host files pg else pg
      | _ => pg

/-- The function `initMergeBuilder()`; it contains no `await`, so it runs to
completion when called. -/
def initMergeBuilder (host : Host) (pg : Page) : Page :=
  if pg.mergeBuilderInitialized then pg
  else
    let pg1 := { pg with mergeBuilderInitialized := true }
    match getElementById pg1 "files" with
    | none => toast pg1 "Merge Builder failed to initialize." "error"
    | some _ =>
      let pg2 := loadSavedFiles host pg1
      let pg3 := { pg2 with addFileDefined := true }
      let pg4 :=
        if pg3.editors.length = 0 then
          (addFile host (.str "src/index.js") (.str "// Add files to begin merging\n") pg3).1
        else pg3
      updateNetwork pg4

/-! ## The merge prompt (`buildPrompt`) -/

/-- The expression `$(id)?.value.trim()`: `none` is `undefined` (no such
element); the read throws a `TypeError` when the element has no `value`. -/
def trimmedValue (pg : Page) (id : String) : Except String (Option String) :=
  match getElementById pg id with
  | none => .ok none
  | some el =>
    match el.value with
    | none => .error "TypeError"
    | some v => .ok (some (jsTrim v))

/-- The condition `$(id)?.checked`. -/
def isChecked (pg : Page) (id : String) : Bool :=
  match getElementById pg id with
  | some el => el.checked
  | none => false

/-- The expression
`document.querySelector('input[name="conflict"]:checked')?.value || "most_secure"`. -/
def conflictChoice (pg : Page) : String :=
  match pg.elements.find? fun el => el.tagName = "INPUT" ∧ el.name = "conflict" ∧ el.checked with
  | some el => orElse (el.value.getD "") "most_secure"
  | none => "most_secure"

/-- The lookup `{ mild: …, … }[preset] || "No goal specified."` of
`buildPrompt`, as the text it contributes to the prompt. -/
def presetDesc (host : Host) (preset : String) : String :=
  if preset = "mild" then "Preserve all logic with minimal restructuring."
  else if preset = "moderate" then "Reorganize where beneficial for clarity and reuse."
  else if preset = "refactor" then
    "Fully refactor for optimal structure, performance, and maintainability."
  else if preset = "ui-component" then
    "Merge multiple UI component implementations (React, Vue, etc.) into a consistent, reusable library."
  else if preset = "client-hook" then
    "Merge custom hooks, composables, or client-side logic with consistent APIs."
  else if preset = "script" then
    "Merge automation, CLI, or utility scripts into a coherent toolset."
  else if preset = "config" then
    "Merge config files, rules, or policy scripts into a unified system."
  else
    match host.inheritedText preset with
    | some t => t
    | none => "No goal specified."

/-- An entry `cond && text` of the `lines` array.  A falsy entry is held as
the empty string, which `filter(Boolean)` drops like `false` and `undefined`. -/
def whenSet (cond : Bool) (text : String) : String :=
  if cond then text else ""

/-- The entries of the `lines` array before `--- BEGIN FILES ---`. -/
def promptHead (projectName goal conflict : String) (extra : Option String)
    (preserve dedupe keepStruct allowTS : Bool) : List String :=
  ["You are an expert senior software engineer and code reviewer.",
   "Task: Merge the following code files into a single, coherent, enterprise-grade codebase.",
   whenSet (projectName ≠ "") ("Target project: " ++ projectName),
   "Merge goal: " ++ goal,
   "Rules:",
   "1) PRESERVE ALL vital logic and business behavior.",
   "2) Eliminate duplicate logic if enabled.",
   "3) Keep clear module/file structure.",
   "4) Conflict resolution: prefer " ++ conflict,
   "5) SECURITY & PERFORMANCE: flag and fix obvious issues.",
   "6) OUTPUT: Return a single merged codebase with:",
   "   - Unified logic",
   "   - README with decisions and usage",
   "   - Change-log mapping original → new files",
   "   - Clear folder structure",
   "   - Use consistent filenames that match the original structure for proper version tracking",
   "   - When updating existing components, use the exact same filename to maintain version history",
   whenSet preserve "   - Original comments preserved",
   whenSet dedupe "   - Duplicate logic removed",
   whenSet keepStruct "   - Existing structure preserved",
   whenSet allowTS "   - TypeScript allowed",
   match extra with
   | some e => whenSet (e ≠ "") ("Extra instructions: " ++ e)
   | none => "",
   "7) VERSIONING GUIDELINES:",
   "   - ALWAYS use the `filename:` parameter in code blocks",
   "   - Use the exact same filename when updating existing components",
   "   - Only change filenames for major refactors or new components",
   "   - This ensures proper version tracking in the chat code extractor"]

/-- The entries of the `lines` array after `--- END FILES ---`. -/
def promptTail : List String :=
  ["Deliverables:",
   "- A single merged codebase with clear structure.",
   "- README with decisions and run instructions.",
   "- Change-log mapping original to new files.",
   "Output Format:",
   "```jsx filename:path/to/merged/file.jsx",
   "// Merged code here",
   "// Maintain original filenames for version tracking",
   "```"]

/-- One entry of `files.map((f, i) => …)`: the block of the file at index `i`. -/
def fileBlock (i : Nat) (f : String × String) : String :=
  "### FILE " ++ toString (i + 1) ++ ": " ++ f.1 ++ " ###\n" ++ f.2

/-- The entries `...files.map((f, i) => …)` of the `lines` array. -/
def fileBlocks (files : List (String × String)) : List String :=
  files.enum.map fun p => fileBlock p.1 p.2

/-- The call `lines.join("\n")`. -/
def joinLines : List String → String
  | [] => ""
  | [s] => s
  | s :: t :: rest => s ++ "\n" ++ joinLines (t :: rest)

/-- The entries of the `lines` array before `--- BEGIN FILES ---`, for the
option values `buildPrompt` reads from the page; `name` and `extra` are the
results of the two reads that call `trim`. -/
def optionHead (host : Host) (pg : Page) (name extra : Option String) : List String :=
  let projectName := orElse (name.getD "") "project"
  let preset := orElse (((getElementById pg "preset").bind fun el => el.value).getD "") "moderate"
  let conflict := conflictChoice pg
  let preserve := isChecked pg "preserve-comments"
  let dedupe := isChecked pg "remove-duplicates"
  let keepStruct := isChecked pg "keep-structure"
  let allowTS := isChecked pg "allow-ts"
  promptHead projectName (presetDesc host preset) conflict extra preserve dedupe keepStruct allowTS

/-- The function `buildPrompt()` of the merge builder: the page after the
call and the string returned, or the exception thrown while the options are
read. -/
def buildPrompt (host : Host) (pg : Page) : Except String (Page × String) :=
  match trimmedValue pg "project-name", trimmedValue pg "extra-instructions" with
  | .error err, _ => .error err
  | .ok _, .error err => .error err
  | .ok name, .ok extra =>
    let files := mergeFiles pg
    if files.length = 0 then
      .ok (toast pg "Add at least one file to merge." "error", "No files provided.")
    else
      let lines :=
        optionHead host pg name extra
          ++ ["--- BEGIN FILES ---"] ++ fileBlocks files ++ ["--- END FILES ---"] ++ promptTail
      .ok (pg, joinLines (lines.filter fun l => l ≠ ""))

/-! ## Tab navigation -/

/-- The test `/^[pP]\d$/.test(tabId)`. -/
def matchesTabPattern (tabId : String) : Bool :=
  match tabId.data with
  | [c, d] => (c = 'p' || c = 'P') && (0x30 ≤ d.val && d.val ≤ 0x39)
  | _ => false

/-- The function `updateFormVisibility(activeTabId)`. -/
def updateFormVisibility (activeTabId : String) (pg : Page) : Page :=
  { pg with
    elements := pg.elements.map fun el =>
      if "section" ∈ el.classes then
        match el.dataShow with
        | some attr =>
          let showIn := (splitComma attr.data).map fun w => jsTrim ⟨w⟩
          { el with display := if activeTabId ∈ showIn then "block" else "none" }
        | none => el
      else el }

/-- The function `activateTab(tabId)`. -/
def activateTab (host : Host) (tabId : String) (pg : Page) : Page :=
  if tabId = "" ∨ ¬ matchesTabPattern tabId then toast pg "Invalid tab ID." "error"
  else
    -- Hide all
    let pg1 : Page :=
      { pg with
        elements := pg.elements.map fun el =>
          if "tab-content" ∈ el.classes then removeClass "active" { el with display := "none" }
          else el }
    -- Show selected
    match getElementById pg1 tabId with
    | none => toast pg1 ("Tab not found: " ++ tabId) "error"
    | some _ =>
      let pg2 : Page := pg1.update tabId fun e => addClass "active" { e with display := "block" }
      -- Update UI
      let pg3 : Page :=
        { pg2 with
          elements := pg2.elements.map fun el =>
            if "workflow-step" ∈ el.classes then removeClass "active" el else el }
      let pg4 : Page :=
        { pg3 with
          elements :=
            updateFirst (fun el => "workflow-step" ∈ el.classes ∧ el.dataStep = some tabId)
              (addClass "active") pg3.elements }
      -- Lazy init Merge Builder
      let pg5 :=
        if tabId = "p1" ∧ ¬ pg4.mergeBuilderInitialized then initMergeBuilder host pg4 else pg4
      -- Load saved data for this stage
      let pg6 := (loadStageData host tabId pg5).1
      -- Update form visibility
      updateFormVisibility tabId pg6

/-- The stage views shown to the user: ids of the `.tab-content` elements
that are displayed or carry the class `active`. -/
def visibleViews (pg : Page) : List String :=
  (pg.elements.filter fun el =>
    "tab-content" ∈ el.classes ∧ (el.display ≠ "none" ∨ "active" ∈ el.classes)).map fun el => el.id

/-! ## A sample host and sample pages -/

/-- The text of a string inside a JSON string literal. -/
def sampleEscape (s : String) : String :=
  ⟨s.data.flatMap fun c =>
    if c = Char.ofNat 34 then ['\\', Char.ofNat 34]
    else if c = '\\' then ['\\', '\\']
    else if c = '\n' then ['\\', 'n']
    else [c]⟩

/-- JSON text of the members of a record of strings. -/
def sampleMembers : List (String × JsVal) → String
  | [] => ""
  | [(k, .str v)] => "\"" ++ sampleEscape k ++ "\":\"" ++ sampleEscape v ++ "\""
  | (k, .str v) :: rest =>
    "\"" ++ sampleEscape k ++ "\":\"" ++ sampleEscape v ++ "\"," ++ sampleMembers rest
  | _ :: rest => sampleMembers rest

/-- JSON text of the items of an array of records of strings. -/
def sampleItems : List JsVal → String
  | [] => ""
  | [.obj members] => "\x7b" ++ sampleMembers members ++ "\x7d"
  | .obj members :: rest => "\x7b" ++ sampleMembers members ++ "\x7d," ++ sampleItems rest
  | _ :: rest => sampleItems rest

/-- Compact JSON text of a record of strings or of an array of such records;
`null` for any other value. -/
def sampleStringify : JsVal → String
  | .obj members => "\x7b" ++ sampleMembers members ++ "\x7d"
  | .arr items => "[" ++ sampleItems items ++ "]"
  | _ => "null"

/-- Read a JSON string literal after its opening quote: its text and the rest of the input. -/
def readString : List Char → Option (List Char × List Char)
  | [] => none
  | '\\' :: 'n' :: rest => (readString rest).map fun r => ('\n' :: r.1, r.2)
  | '\\' :: c :: rest => (readString rest).map fun r => (c :: r.1, r.2)
  | c :: rest =>
    if c = Char.ofNat 34 then some ([], rest)
    else (readString rest).map fun r => (c :: r.1, r.2)

/-- Read the members of a record of strings, up to the closing brace. -/
def readMembers : Nat → List Char → Option (List (String × JsVal))
  | 0, _ => none
  | fuel + 1, input =>
    match input with
    | [] => none
    | q :: rest =>
      if q ≠ Char.ofNat 34 then none
      else
        match readString rest with
        | some (k, ':' :: q2 :: rest2) =>
          if q2 ≠ Char.ofNat 34 then none
          else
            match readString rest2 with
            | some (v, [c]) => if c = Char.ofNat 0x7d then some [(⟨k⟩, .str ⟨v⟩)] else none
            | some (v, ',' :: rest3) =>
              (readMembers fuel rest3).map fun ms => (⟨k⟩, .str ⟨v⟩) :: ms
            | _ => none
        | _ => none

/-- Read the members of a record of strings inside a larger text: the
members and what follows the closing brace. -/
def readRecord : Nat → List Char → Option (List (String × JsVal) × List Char)
  | 0, _ => none
  | fuel + 1, input =>
    match input with
    | [] => none
    | q :: rest =>
      if q ≠ Char.ofNat 34 then none
      else
        match readString rest with
        | some (k, ':' :: q2 :: rest2) =>
          if q2 ≠ Char.ofNat 34 then none
          else
            match readString rest2 with
            | some (v, ',' :: rest3) =>
              (readRecord fuel rest3).map fun r => ((⟨k⟩, .str ⟨v⟩) :: r.1, r.2)
            | some (v, c :: rest3) =>
              if c = Char.ofNat 0x7d then some ([(⟨k⟩, .str ⟨v⟩)], rest3) else none
            | _ => none
        | _ => none

/-- Read the records of an array, up to the closing bracket. -/
def readRecords : Nat → List Char → Option (List JsVal)
  | 0, _ => none
  | fuel + 1, input =>
    match input with
    | [] => none
    | c :: rest =>
      if c ≠ Char.ofNat 0x7b then none
      else
        match readRecord rest.length rest with
        | some (members, [d]) => if d = ']' then some [.obj members] else none
        | some (members, ',' :: rest2) =>
          (readRecords fuel rest2).map fun items => .obj members :: items
        | _ => none

/-- A parser for the compact JSON text of records of strings and of arrays
of such records. -/
def sampleParse (s : String) : Option JsVal :=
  match s.data with
  | [] => none
  | c :: rest =>
    if c = '[' then
      if rest = [']'] then some (.arr []) else (readRecords rest.length rest).map JsVal.arr
    else if c ≠ Char.ofNat 0x7b then none
    else if rest = [Char.ofNat 0x7d] then some (.obj [])
    else (readMembers rest.length rest).map JsVal.obj

/-- A host for the examples: JSON restricted to records of strings and arrays
of such records, ASCII upper-casing, the value sanitisation of the text-like
inputs (the sample pages hold no input of another kind but file inputs, which
do not reach it), and the random texts `r0`, `r1`, …. -/
def sampleHost : Host where
  parse := sampleParse
  stringify := sampleStringify
  toUpperCase := fun s => ⟨s.data.map Char.toUpper⟩
  toDomString := fun _ v =>
    match v with
    | .bool true => "true"
    | .bool false => "false"
    | .num t => t
    | _ => ""
  sanitize := fun type s =>
    if type = "text" ∨ type = "search" ∨ type = "tel" ∨ type = "password" then
      ⟨s.data.filter fun c => c ≠ '\n' ∧ c ≠ '\r'⟩
    else s
  random := fun k => "r" ++ toString k
  inheritedText := fun _ => none

/-- A text input with the given id and value. -/
def inputEl (id value : String) : Element :=
  { id := id, tagName := "INPUT", value := some value }

/-- A textarea with the given id and value. -/
def textareaEl (id value : String) : Element :=
  { id := id, tagName := "TEXTAREA", value := some value }

/-- An output block (`pre`) with the given id. -/
def outputEl (id : String) : Element :=
  { id := id, tagName := "PRE" }

/-- A stage view with the given id and visibility. -/
def viewEl (id : String) (shown : Bool) : Element :=
  { id := id, tagName := "SECTION"
    classes := if shown then ["tab-content", "active"] else ["tab-content"]
    display := if shown then "block" else "none" }

/-- The raw `value` of the form field `id`, when the element exists and has one. -/
def fieldValue (pg : Page) (id : String) : Option String :=
  (getElementById pg id).bind fun el => el.value

/-- A page with the stage-2 form: a code field holding `code` and the output block `out2`. -/
def stage2Page (code : String) : Page :=
  { elements := [textareaEl "code" code, outputEl "out2"] }

/-- A page with the stage-0 form: a screen-name field and the output field. -/
def stage0Page (screenName output : String) : Page :=
  { elements := [inputEl "screenName" screenName, textareaEl "output0" output] }

/-- The string held by a string value; `none` for any other value. -/
def JsVal.asString : JsVal → Option String
  | .str s => some s
  | _ => none

/-- The host's JSON functions round-trip the value `v`: `JSON.stringify(v)`
is a non-empty text that `JSON.parse` reads back as `v`. -/
def Host.roundTrips (host : Host) (v : JsVal) : Prop :=
  host.stringify v ≠ "" ∧ host.parse (host.stringify v) = some v

/-- The element is one of the form controls `loadStageData` writes to. -/
def isFormControl (el : Element) : Prop :=
  el.tagName = "SELECT" ∨ el.tagName = "INPUT" ∨ el.tagName = "TEXTAREA"

instance (el : Element) : Decidable (isFormControl el) := by
  unfold isFormControl
  infer_instance

/-- A `select` with the given id, option values and current value. -/
def selectEl (id : String) (options : List String) (value : String) : Element :=
  { id := id, tagName := "SELECT", options := options, value := some value }

/-- The stage-0 view with its eight fields filled in; the role is chosen
among the options `admin`, `staff` and `changed`. -/
def stage0Form : Page :=
  { elements :=
      [viewEl "p0" true, viewEl "p1" false,
       inputEl "screenName" "Home", inputEl "featureDesc" "Feed", inputEl "components" "Card",
       inputEl "collections" "posts", textareaEl "reusable" "Modal",
       textareaEl "designGuide" "dark", selectEl "role" ["admin", "staff", "changed"] "admin", textareaEl "output0" "PROMPT"] }

/-- The stage-0 form after its `input` listener has auto-saved it and the
user has then changed the screen name to `Other`. -/
def stage0Edited : Page :=
  editField (autoSaveInput sampleHost stage0Key stage0Fields stage0Form) "screenName" "Other"

/-- A form with fields `a`, `b` and `c`; `a` holds a value padded with blanks. -/
def abcForm : Page :=
  { elements := [inputEl "a" " 1 ", inputEl "b" "2", inputEl "c" "3"] }

/-- The form `abcForm` after the `input` listener for the fields `a` and `b`
has saved it under the key `k`. -/
def abcSaved : Page :=
  autoSaveInput sampleHost "k" ["a", "b"] abcForm

/-- A file input with the given id and value. -/
def fileEl (id value : String) : Element :=
  { id := id, tagName := "INPUT", inputType := "file", value := some value }

/-- A form with a `select` whose chosen option has the value ` L `, padded
with blanks, and a text input. -/
def sizeForm : Page :=
  { elements := [selectEl "size" [" L ", "M"] " L ", inputEl "note" "n"] }

/-- The form `sizeForm` after the `input` listener for its two fields has
saved it under the key `k`. -/
def sizeSaved : Page :=
  autoSaveInput sampleHost "k" ["size", "note"] sizeForm

/-- A form with a file input for which a file has been chosen, and a text input. -/
def uploadForm : Page :=
  { elements := [fileEl "upload" "C:\\fakepath\\a.txt", inputEl "note" "n"] }

/-- The form `uploadForm` after the `input` listener for its two fields has
saved it under the key `k` and the user has then changed the note to `edited`. -/
def uploadSaved : Page :=
  editField (autoSaveInput sampleHost "k" ["upload", "note"] uploadForm) "note" "edited"

/-- The stage-0 form after `saveStage0()` and a later edit of all eight
fields to the text `changed`. -/
def stage0ManualEdited : Page :=
  stage0Fields.foldl (fun pg id => editField pg id "changed") (saveStage0 sampleHost stage0Form)

/-- A merge builder holding the files `a.js` and `b.js`. -/
def twoFiles : Page :=
  { editors :=
      [{ id := "fr0", row := 0, fname := "a.js", content := "x" },
       { id := "fr1", row := 1, fname := "b.js", content := "y" }]
    rows := [0, 1]
    rowsCreated := 2
    randomCalls := 2
    mergeBuilderInitialized := true
    addFileDefined := true }

/-- Everything of a page but its elements: the store, the notifications and
the merge builder's state. -/
def Page.rest (pg : Page) : Page :=
  { pg with elements := [] }

/-! ## Notions used to state the properties -/

/-- What decides how an element takes an assigned value: its tag, the type of
an `input` and the options of a `select`. -/
def Element.kind (el : Element) : String × String × List String :=
  (el.tagName, el.inputType, el.options)

/-- The record saved from `pg` for `fields` can be restored into `later`
without an exception: no declared field is a file input of `later` for which
a non-empty text was saved. -/
def restorable (pg later : Page) (fields : List String) : Bool :=
  fields.all fun g =>
    match getElementById later g with
    | some el => !valueThrows el (safeValue pg g)
    | none => true

/-- The text `needle` occurs in `hay` as a contiguous substring. -/
def occursIn (needle hay : String) : Prop :=
  needle.data <:+: hay.data

instance (needle hay : String) : Decidable (occursIn needle hay) := by
  unfold occursIn
  infer_instance

/-- The entries the statistics count: those whose content is non-empty. -/
def countedEntries (editors : List Editor) : List Editor :=
  editors.filter fun e => e.content ≠ ""

/-- The sum of the content lengths of the counted entries. -/
def charCount (editors : List Editor) : Nat :=
  ((countedEntries editors).map fun e => jsLength e.content).sum

/-- The name an entry is shown under: its trimmed file name, or `unnamed`
when that is empty. -/
def shownName (e : Editor) : String :=
  if jsTrim e.fname = "" then "unnamed" else jsTrim e.fname

/-- The file blocks as the specification describes them: the entries are
walked in list order with a counter that starts at `k`; an entry with empty
content is skipped and does not advance the counter, any other entry gives the
block `### FILE k: name ###`, a line break and its content. -/
def numberedBlocks : Nat → List Editor → List String
  | _, [] => []
  | k, e :: rest =>
    if e.content = "" then numberedBlocks k rest
    else
      ("### FILE " ++ toString k ++ ": " ++ shownName e ++ " ###\n" ++ e.content)
        :: numberedBlocks (k + 1) rest

/-- The option controls `buildPrompt` calls `trim` on are text controls: the
element `id` is absent or has a `value`. -/
def readableOption (pg : Page) (id : String) : Prop :=
  ∀ el, getElementById pg id = some el → el.value ≠ none

instance (pg : Page) (id : String) : Decidable (readableOption pg id) :=
  match h : getElementById pg id with
  | none => isTrue (fun el hel => by rw [h] at hel; cases hel)
  | some el0 =>
    if hv : el0.value = none then
      isFalse (fun hr => hr el0 h hv)
    else
      isTrue (fun el hel => by rw [h] at hel; cases hel; exact hv)

/-- Does ` filename:` occur in the text after at least one earlier character? -/
def hasTagAfterLanguage : List Char → Bool
  | [] => false
  | _ :: rest => startsWith rest " filename:".data || hasTagAfterLanguage rest

/-- Does the line hold three backticks, a non-empty language name, one space
and the token `filename:`? -/
def hasFenceTag : List Char → Bool
  | [] => false
  | c :: rest =>
    (startsWith (c :: rest) "```".data && hasTagAfterLanguage (rest.drop 2)) || hasFenceTag rest

/-- The call `s.split("\n")`, on character lists. -/
def splitLines : List Char → List (List Char)
  | [] => [[]]
  | c :: cs =>
    match splitLines cs with
    | [] => [[c]]
    | w :: ws => if c = '\n' then [] :: w :: ws else (c :: w) :: ws

/-- Does some line of the text open a fenced block in the form
`language filename:PATH`, with a non-empty language? -/
def hasTaggedFence (s : String) : Bool :=
  (splitLines s.data).any hasFenceTag

/-- Is every occurrence of three backticks in the text directly followed by
`filename:`, by a line break, or by the end of the text?  A fence opening
that names a language fails the test. -/
def fencesBare : List Char → Bool
  | [] => true
  | c :: rest =>
    (!startsWith (c :: rest) "```".data ||
      startsWith (rest.drop 2) "filename:".data || startsWith (rest.drop 2) "\n".data ||
      (rest.drop 2).isEmpty) && fencesBare rest

/-- The text contains no backtick. -/
def backtickFree (s : String) : Bool :=
  s.data.all fun ch => ch ≠ '`'

/-- A piece of a template that settles the test `fencesBare` on its own,
whatever text follows it: each of its backticks either has a character other
than a backtick among the next two of the piece, or starts three backticks
that the piece itself continues with `filename:` or a line break. -/
def closedPiece : List Char → Bool
  | [] => true
  | c :: rest =>
    (c ≠ '`' ||
      (rest.take 2).any (fun x => x ≠ '`') ||
      (startsWith (c :: rest) "```".data &&
        (startsWith (rest.drop 2) "filename:".data || startsWith (rest.drop 2) "\n".data))) &&
    closedPiece rest

/-- An operation on the file collection: a call of `addFile`, a click on a
`Remove` button, or a click on `Clear`. -/
inductive FileOp where
  | add (name content : JsVal)
  | remove (row : Nat) (id : String)
  | clear (confirmed : Bool)

/-- The effect of one operation on the page. -/
def applyOp (host : Host) (pg : Page) : FileOp → Page
  | .add name content => (addFile host name content pg).1
  | .remove row id => removeClick host row id pg
  | .clear confirmed => clearClick confirmed pg

/-- The effect of a sequence of operations, first to last. -/
def runOps (host : Host) (pg : Page) (ops : List FileOp) : Page :=
  ops.foldl (applyOp host) pg

/-- The ids generated in the session so far: `"f" + r` for every text `r`
the random source has produced. -/
def generatedIds (host : Host) (pg : Page) : List String :=
  (List.range pg.randomCalls).map fun k => "f" ++ host.random k

/-- A host whose random source repeats itself: every call gives `abc1234`. -/
def repeatingHost : Host :=
  { sampleHost with random := fun _ => "abc1234" }

/-- A host whose random source gives `k mod 8` letters `a` at its k-th call:
texts of at most seven characters, pairwise distinct over eight calls in a
row and the same again after them. -/
def cyclicHost : Host :=
  { sampleHost with random := fun k => ⟨List.replicate (k % 8) 'a'⟩ }

/-- The random source has given pairwise distinct texts at its first `n` calls. -/
def distinctCalls (host : Host) (n : Nat) : Prop :=
  ∀ j, j < n → ∀ i, i < j → host.random i ≠ host.random j

instance (host : Host) (n : Nat) : Decidable (distinctCalls host n) := by
  unfold distinctCalls
  infer_instance

/-- The merge builder's page before its first activation, with the container
`#files` and the statistics badges, and nothing persisted. -/
def mergePage : Page :=
  { elements :=
      [viewEl "p0" true, viewEl "p1" false, { id := "files" },
       { id := "file-count", tagName := "SPAN" }, { id := "char-count", tagName := "SPAN" },
       { id := "token-estimate", tagName := "SPAN", classes := ["badge"] }] }

/-- The JSON text `saveFiles` writes for the files `a.js` (content `x`) and
`b.js` (content `y`). -/
def savedFilesText : String :=
  "[\x7b\"name\":\"a.js\",\"content\":\"x\"\x7d,\x7b\"name\":\"b.js\",\"content\":\"y\"\x7d]"

/-- The same page with two files persisted under the key `mergeFiles`. -/
def savedFilesPage : Page :=
  { mergePage with storage := [(mergeFilesKey, savedFilesText)] }

/-- The entry `initMergeBuilder` seeds an empty collection with, on a page
where no id and no row has been created yet. -/
def defaultEntry : Editor :=
  { id := "fr0", row := 0, fname := "src/index.js", content := "// Add files to begin merging\n" }

/-- A merge builder holding one file with content `abcd` and one with empty content. -/
def statsPage : Page :=
  { mergePage with
    editors :=
      [{ id := "fr0", row := 0, fname := "a.js", content := "abcd" },
       { id := "fr1", row := 1, fname := "b.js", content := "" }]
    rows := [0, 1]
    rowsCreated := 2
    randomCalls := 2
    mergeBuilderInitialized := true
    addFileDefined := true }

/-- A merge builder holding `a.js`, an entry with empty content, and an
entry with a blank name. -/
def threeFiles : Page :=
  { mergePage with
    editors :=
      [{ id := "fr0", row := 0, fname := "a.js", content := "abcd" },
       { id := "fr1", row := 1, fname := "b.js", content := "" },
       { id := "fr2", row := 2, fname := "  ", content := "z" }]
    rows := [0, 1, 2]
    rowsCreated := 3
    randomCalls := 3
    mergeBuilderInitialized := true
    addFileDefined := true }

/-- The entries of the collection carry the ids of the calls `ks` of the
random source: calls made so far, each at most once, in the order they were
made. -/
def idsFromCalls (host : Host) (pg : Page) (ks : List Nat) : Prop :=
  ks.Pairwise (fun a b => a < b) ∧ (∀ k ∈ ks, k < pg.randomCalls) ∧
  (pg.editors.map fun e => e.id) = ks.map fun k => "f" ++ host.random k

/-! ## Lemmas on strings -/

theorem dropWhile_append_singleton (p : Char → Bool) (l : List Char) (c : Char)
    (hc : p c = false) : (l ++ [c]).dropWhile p = l.dropWhile p ++ [c] := by
  induction l with
  | nil => simp [List.dropWhile, hc]
  | cons a l ih =>
    by_cases ha : p a = true
    · simp [List.dropWhile, ha, ih]
    · simp [List.dropWhile, ha]

theorem dropWhile_eq_nil_or_head (p : Char → Bool) (l : List Char) :
    l.dropWhile p = [] ∨ ∃ c cs, l.dropWhile p = c :: cs ∧ p c = false := by
  induction l with
  | nil => simp
  | cons a l ih =>
    by_cases ha : p a = true
    · simpa [List.dropWhile, ha] using ih
    · right
      exact ⟨a, l, by simp [List.dropWhile, ha], by simpa using ha⟩

/-- Trimming is idempotent on character lists. -/
theorem trimChars_idem (l : List Char) : trimChars (trimChars l) = trimChars l := by
  rcases dropWhile_eq_nil_or_head isJsWhitespace l with h | ⟨c, cs, h, hc⟩
  · simp [trimChars, h]
  · have h1 : trimChars l = ((c :: cs).reverse.dropWhile isJsWhitespace).reverse := by
      simp [trimChars, h]
    have h2 : ((c :: cs).reverse.dropWhile isJsWhitespace).reverse
        = c :: (cs.reverse.dropWhile isJsWhitespace).reverse := by
      simp [dropWhile_append_singleton, hc]
    rw [h1, h2]
    have h3 : (c :: (cs.reverse.dropWhile isJsWhitespace).reverse).dropWhile isJsWhitespace
        = c :: (cs.reverse.dropWhile isJsWhitespace).reverse := by
      simp [List.dropWhile, hc]
    unfold trimChars
    rw [h3]
    simp only [List.reverse_cons, List.reverse_reverse]
    rw [dropWhile_append_singleton _ _ _ hc]
    have h4 : (cs.reverse.dropWhile isJsWhitespace).dropWhile isJsWhitespace
        = cs.reverse.dropWhile isJsWhitespace := by
      rcases dropWhile_eq_nil_or_head isJsWhitespace cs.reverse with h5 | ⟨d, ds, h5, hd⟩
      · simp [h5]
      · rw [h5]; simp [List.dropWhile, hd]
    rw [h4]
    simp

/-- The method `trim` is idempotent. -/
theorem jsTrim_idem (s : String) : jsTrim (jsTrim s) = jsTrim s := by
  simp [jsTrim, trimChars_idem]

/-! ## Lemmas on element lookup and update -/

theorem find_updateFirst_ne (els : List Element) (g c : String) (F : Element → Element)
    (hF : ∀ e, (F e).id = e.id) (h : g ≠ c) :
    (updateFirst (fun el => el.id = g) F els).find? (fun el => el.id = c)
      = els.find? (fun el => el.id = c) := by
  induction els with
  | nil => rfl
  | cons e es ih =>
    by_cases he : e.id = g
    · have hec : ¬ e.id = c := fun h' => h (he.symm.trans h')
      simp [updateFirst, he, List.find?_cons, hF]
      simp [← he, hec]
    · by_cases hec : e.id = c
      · have hcg : ¬ c = g := fun h' => h h'.symm
        simp [updateFirst, List.find?_cons, hec, hcg]
      · simp [updateFirst, he, List.find?_cons, hec, ih]

theorem find_updateFirst_same (els : List Element) (c : String) (F : Element → Element)
    (hF : ∀ e, (F e).id = e.id) :
    (updateFirst (fun el => el.id = c) F els).find? (fun el => el.id = c)
      = (els.find? (fun el => el.id = c)).map F := by
  induction els with
  | nil => rfl
  | cons e es ih =>
    by_cases he : e.id = c
    · simp [updateFirst, he, List.find?_cons, hF]
    · simp [updateFirst, he, List.find?_cons, ih]

/-- Updating the element with id `g` leaves the lookup of any other id unchanged. -/
theorem getElementById_update_ne (pg : Page) (g c : String) (F : Element → Element)
    (hF : ∀ e, (F e).id = e.id) (h : g ≠ c) :
    getElementById (pg.update g F) c = getElementById pg c := by
  simpa [getElementById, Page.update] using find_updateFirst_ne pg.elements g c F hF h

/-- Updating the element with id `c` applies the update to what the lookup of `c` returns. -/
theorem getElementById_update_same (pg : Page) (c : String) (F : Element → Element)
    (hF : ∀ e, (F e).id = e.id) :
    getElementById (pg.update c F) c = (getElementById pg c).map F := by
  simpa [getElementById, Page.update] using find_updateFirst_same pg.elements c F hF

theorem safeValue_of_fieldValue (pg : Page) (id v : String) (h : fieldValue pg id = some v) :
    safeValue pg id = jsTrim v := by
  unfold fieldValue at h
  unfold safeValue
  cases hg : getElementById pg id with
  | none => simp [hg] at h
  | some el =>
    simp only [hg, Option.some_bind] at h
    simp [h]

theorem jsLength_empty : jsLength "" = 0 := by decide

theorem codeTooShort_trim (v : String) :
    codeTooShort (jsTrim v) = decide (jsLength (jsTrim v) < 10) := by
  unfold codeTooShort
  rw [jsTrim_idem]
  by_cases h : jsTrim v = ""
  · simp [h, jsLength_empty]
  · simp [h]

/-! ## Stages 2–5: the code gate of `safeGenerate` -/

/-- C1 as stated fails: a code field holding `   short   ` has 11 characters,
yet `safeGenerate(prompt2, "out2")` refuses to generate, because the script
measures the trimmed text (5 characters). -/
theorem safeGenerate_padded_code_refused :
    10 ≤ jsLength "   short   " ∧
    fieldValue (stage2Page "   short   ") "code" = some "   short   " ∧
    safeGenerate sampleHost prompt2 "out2" (stage2Page "   short   ")
      = toast (stage2Page "   short   ")
          "Please paste code to analyze (at least 10 characters)." "error" ∧
    (getElementById (safeGenerate sampleHost prompt2 "out2" (stage2Page "   short   "))
        "out2").map (fun el => el.textContent) = some "" ∧
    (getElementById (safeGenerate sampleHost prompt2 "out2" (stage2Page "   short   "))
        "out2").map (fun el => el.textContent)
      ≠ some (prompt2 (ctx sampleHost (stage2Page "   short   "))) := by
  decide

/-- C1 (amended): for any template function (in particular `prompt2` … `prompt5`)
and an existing output element, `safeGenerate` refuses when the code field is
`x`, or more generally when its trimmed text has fewer than 10 UTF-16 code
units: it raises the error notification and leaves the page, and so the
output, as it was.  When the trimmed text has at least 10 code units it writes
the generated prompt to the output and reports success. -/
theorem safeGenerate_code_gate (host : Host) (genFn : Ctx → String) (outId : String)
    (pg : Page) (v : String) (out : Element)
    (hcode : fieldValue pg "code" = some v)
    (hout : getElementById pg outId = some out) :
    (v = "x" ∨ jsLength (jsTrim v) < 10 →
      safeGenerate host genFn outId pg
          = toast pg "Please paste code to analyze (at least 10 characters)." "error" ∧
        getElementById (safeGenerate host genFn outId pg) outId = some out) ∧
    (10 ≤ jsLength (jsTrim v) →
      safeGenerate host genFn outId pg
          = toast (pg.update outId fun e =>
              addClass "generated" { e with textContent := genFn (ctx host pg) })
            "Prompt generated." "ok" ∧
        (getElementById (safeGenerate host genFn outId pg) outId).map (fun el => el.textContent)
          = some (genFn (ctx host pg))) := by
  have hsv : safeValue pg "code" = jsTrim v := safeValue_of_fieldValue pg "code" v hcode
  have hc : (ctx host pg).code = jsTrim v := by simp [ctx, hsv]
  constructor
  · intro hx
    have hlt : jsLength (jsTrim v) < 10 := by
      rcases hx with rfl | h
      · decide
      · exact h
    have hshort : codeTooShort (ctx host pg).code = true := by
      rw [hc, codeTooShort_trim]; simpa using hlt
    have hres : safeGenerate host genFn outId pg
        = toast pg "Please paste code to analyze (at least 10 characters)." "error" := by
      simp [safeGenerate, requireCode, hshort]
    refine ⟨hres, ?_⟩
    rw [hres]
    simpa [getElementById, toast] using hout
  · intro hge
    have hlong : codeTooShort (ctx host pg).code = false := by
      rw [hc, codeTooShort_trim]; simpa using hge
    have hres : safeGenerate host genFn outId pg
        = toast (pg.update outId fun e =>
            addClass "generated" { e with textContent := genFn (ctx host pg) })
          "Prompt generated." "ok" := by
      simp [safeGenerate, requireCode, hlong, hout]
    refine ⟨hres, ?_⟩
    rw [hres]
    have hid : ∀ e : Element,
        (addClass "generated" { e with textContent := genFn (ctx host pg) }).id = e.id := by
      intro e
      unfold addClass
      split <;> rfl
    have hget := getElementById_update_same pg outId
      (fun e => addClass "generated" { e with textContent := genFn (ctx host pg) }) hid
    have htoast : ∀ (q : Page) (m t : String),
        getElementById (toast q m t) outId = getElementById q outId := fun _ _ _ => rfl
    rw [htoast, hget, hout]
    simp only [Option.map_some']
    unfold addClass
    split <;> rfl

/-- Witness for C1: a code field of ten characters on the stage-2 page. -/
theorem safeGenerate_code_gate_witness :
    (getElementById (safeGenerate sampleHost prompt2 "out2" (stage2Page "0123456789"))
        "out2").map (fun el => el.textContent)
      = some (prompt2 (ctx sampleHost (stage2Page "0123456789"))) :=
  ((safeGenerate_code_gate sampleHost prompt2 "out2" (stage2Page "0123456789") "0123456789"
      (outputEl "out2") (by decide) (by decide)).2 (by decide)).2

/-! ## Stage 0: the screen-name gate of `generatePrompt` -/

/-- C2: when the screen name read by `generatePrompt` is empty (the field is
empty, blank or missing), whatever the other fields hold, generation is
refused with the error notification `Please enter a screen name.` and the
page is otherwise unchanged; in particular the output field `output0` keeps
its value. -/
theorem generatePrompt_empty_screen_refused (host : Host) (pg : Page)
    (hscreen : safeValue pg "screenName" = "") :
    generatePrompt host pg = toast pg "Please enter a screen name." "error" ∧
    (generatePrompt host pg).toasts = pg.toasts ++ [("Please enter a screen name.", "error")] ∧
    getElementById (generatePrompt host pg) "output0" = getElementById pg "output0" ∧
    fieldValue (generatePrompt host pg) "output0" = fieldValue pg "output0" := by
  have h : generatePrompt host pg = toast pg "Please enter a screen name." "error" := by
    simp [generatePrompt, hscreen]
  rw [h]
  exact ⟨rfl, rfl, rfl, rfl⟩

/-- Witness for C2: an empty screen name and an output field holding an earlier prompt. -/
theorem generatePrompt_empty_screen_refused_witness :
    fieldValue (generatePrompt sampleHost (stage0Page "" "earlier prompt")) "output0"
      = some "earlier prompt" :=
  (generatePrompt_empty_screen_refused sampleHost (stage0Page "" "earlier prompt")
    (by decide)).2.2.2.trans (by decide)

/-! ## Lemmas on records and on `loadStageData` -/

theorem lookup_cons_same (k : String) (v : JsVal) (rest : List (String × JsVal)) :
    List.lookup k ((k, v) :: rest) = some v := by
  simp [List.lookup]

theorem lookup_cons_ne (c k : String) (v : JsVal) (rest : List (String × JsVal))
    (h : c ≠ k) : List.lookup c ((k, v) :: rest) = List.lookup c rest := by
  have hb : (c == k) = false := by simpa using h
  simp [List.lookup, hb]

theorem lookup_setProp_same (r : List (String × JsVal)) (k : String) (v : JsVal)
    (hk : k ≠ "__proto__") : (setProp r k v).lookup k = some v := by
  induction r with
  | nil => simp [setProp, hk, List.lookup]
  | cons kv rest ih =>
    obtain ⟨k', v'⟩ := kv
    by_cases h : k' = k
    · subst h
      simp only [setProp, if_neg hk, if_true]
      exact lookup_cons_same _ _ _
    · have h' : k ≠ k' := fun e => h e.symm
      simp only [setProp, if_neg hk, if_neg h]
      rw [lookup_cons_ne _ _ _ _ h', ih]

theorem lookup_setProp_ne (r : List (String × JsVal)) (k c : String) (v : JsVal)
    (h : c ≠ k) : (setProp r k v).lookup c = r.lookup c := by
  induction r with
  | nil =>
    by_cases hk : k = "__proto__"
    · simp [setProp, hk]
    · simp only [setProp, if_neg hk]
      rw [lookup_cons_ne _ _ _ _ h]
  | cons kv rest ih =>
    obtain ⟨k', v'⟩ := kv
    by_cases hk : k = "__proto__"
    · simp [setProp, hk]
    · by_cases h' : k' = k
      · have hc : c ≠ k' := fun e => h (e.trans h')
        simp only [setProp, if_neg hk, if_pos h']
        rw [lookup_cons_ne _ _ _ _ hc, lookup_cons_ne _ _ _ _ hc]
      · simp only [setProp, if_neg hk, if_neg h']
        by_cases hc : c = k'
        · subst hc
          rw [lookup_cons_same, lookup_cons_same]
        · rw [lookup_cons_ne _ _ _ _ hc, lookup_cons_ne _ _ _ _ hc, ih]

theorem lookup_foldl_setProp (sv : String → String) (fields : List String)
    (r : List (String × JsVal)) (f : String) (hname : f ≠ "__proto__") :
    (fields.foldl (fun data g => setProp data g (.str (sv g))) r).lookup f
      = if f ∈ fields then some (.str (sv f)) else r.lookup f := by
  induction fields generalizing r with
  | nil => simp
  | cons g gs ih =>
    rw [List.foldl_cons, ih]
    by_cases hgs : f ∈ gs
    · simp [hgs]
    · by_cases hg : f = g
      · subst hg
        simp [hgs, lookup_setProp_same _ _ _ hname]
      · simp [hgs, hg, lookup_setProp_ne _ _ _ _ hg]

/-- The record built by the auto-save listener maps every declared field to
the trimmed value `safeValue` reads. -/
theorem lookup_snapshot (pg : Page) (fields : List String) (f : String) (hf : f ∈ fields)
    (hname : f ≠ "__proto__") :
    (snapshot pg fields).lookup f = some (.str (safeValue pg f)) := by
  unfold snapshot
  rw [lookup_foldl_setProp (fun g => safeValue pg g) fields [] f hname]
  simp [hf]

theorem mem_keys_of_lookup (l : List (String × JsVal)) (f : String) (v : JsVal)
    (h : l.lookup f = some v) : f ∈ l.map Prod.fst := by
  induction l with
  | nil => simp [List.lookup] at h
  | cons kv rest ih =>
    obtain ⟨k, w⟩ := kv
    by_cases hk : f = k
    · simp [hk]
    · have : (f == k) = false := by simpa using hk
      simp only [List.lookup, this] at h
      simp [ih h]

theorem lookup_proto_setProp (r : List (String × JsVal)) (k : String) (v : JsVal) :
    (setProp r k v).lookup "__proto__" = r.lookup "__proto__" := by
  by_cases hk : k = "__proto__"
  · subst hk
    cases r <;> simp [setProp]
  · exact lookup_setProp_ne r k "__proto__" v (fun e => hk e.symm)

theorem lookup_proto_foldl (sv : String → String) (fields : List String)
    (r : List (String × JsVal)) :
    (fields.foldl (fun data g => setProp data g (.str (sv g))) r).lookup "__proto__"
      = r.lookup "__proto__" := by
  induction fields generalizing r with
  | nil => rfl
  | cons g gs ih => rw [List.foldl_cons, ih, lookup_proto_setProp]

/-- Every member of the record built by the auto-save listener is a declared
field with the trimmed value `safeValue` reads. -/
theorem lookup_snapshot_some (pg : Page) (fields : List String) (k : String) (v : JsVal)
    (h : (snapshot pg fields).lookup k = some v) :
    k ∈ fields ∧ v = .str (safeValue pg k) := by
  unfold snapshot at h
  by_cases hk : k = "__proto__"
  · subst hk
    rw [lookup_proto_foldl (fun g => safeValue pg g) fields []] at h
    simp at h
  · rw [lookup_foldl_setProp (fun g => safeValue pg g) fields [] k hk] at h
    by_cases hmem : k ∈ fields
    · rw [if_pos hmem] at h
      exact ⟨hmem, (Option.some.inj h).symm⟩
    · rw [if_neg hmem] at h
      simp at h

theorem normalizeNewlines_of_no_cr (l : List Char) (h : '\r' ∉ l) : normalizeNewlines l = l := by
  induction l with
  | nil => rfl
  | cons c rest ih =>
    have hc : c ≠ '\r' := fun e => h (by simp [e])
    have hrest : '\r' ∉ rest := fun e => h (by simp [e])
    rw [normalizeNewlines]
    · rw [ih hrest]
    all_goals (intros; simp_all)

theorem acceptedValue_congr (host : Host) (a b : Element) (s : String) (h : a.kind = b.kind) :
    acceptedValue host a s = acceptedValue host b s := by
  simp only [Element.kind, Prod.mk.injEq] at h
  obtain ⟨h1, h2, h3⟩ := h
  simp only [acceptedValue, h1, h2, h3]

theorem valueThrows_congr (a b : Element) (s : String) (h : a.kind = b.kind) :
    valueThrows a s = valueThrows b s := by
  simp only [Element.kind, Prod.mk.injEq] at h
  obtain ⟨h1, h2, _⟩ := h
  simp only [valueThrows, h1, h2]

theorem restoreTextarea_id (host : Host) (cm : Bool) (e : Element) (v : JsVal) :
    (restoreTextarea host cm e v).id = e.id := by
  unfold restoreTextarea
  dsimp only
  split <;> rfl

theorem restoreTextarea_kind (host : Host) (cm : Bool) (e : Element) (v : JsVal) :
    (restoreTextarea host cm e v).kind = e.kind := by
  unfold restoreTextarea
  dsimp only
  split <;> rfl

theorem restoreTextarea_value (host : Host) (cm : Bool) (e : Element) (v : JsVal) :
    (restoreTextarea host cm e v).value = (setValue host e v).value := by
  unfold restoreTextarea
  dsimp only
  split <;> rfl

/-- Updating an element by a function that keeps ids and kinds keeps the kind
of what every lookup returns. -/
theorem getElementById_update_kind (pg : Page) (g c : String) (F : Element → Element)
    (hF : ∀ e, (F e).id = e.id) (hK : ∀ e, (F e).kind = e.kind) :
    (getElementById (pg.update g F) c).map Element.kind
      = (getElementById pg c).map Element.kind := by
  by_cases h : g = c
  · subst h
    rw [getElementById_update_same pg g F hF]
    cases getElementById pg g with
    | none => rfl
    | some e => simp [hK]
  · rw [getElementById_update_ne pg g c F hF h]

/-- A turn of the loop of `loadStageData` throws, or leaves the page as it is,
or updates the element `id` by a function that keeps ids and kinds. -/
theorem restoreField_shape (host : Host) (pg : Page) (id : String) (v : JsVal) :
    restoreField host pg id v = none ∨ restoreField host pg id v = some pg ∨
    ∃ F : Element → Element, (∀ e, (F e).id = e.id) ∧ (∀ e, (F e).kind = e.kind) ∧
      restoreField host pg id v = some (pg.update id F) := by
  unfold restoreField
  split
  · exact Or.inr (Or.inl rfl)
  · split
    · exact Or.inr (Or.inl rfl)
    · split
      · split
        · exact Or.inl rfl
        · exact Or.inr (Or.inr ⟨fun e => setValue host e v, fun _ => rfl, fun _ => rfl, rfl⟩)
      · split
        · exact Or.inr (Or.inr ⟨fun e => restoreTextarea host pg.hasCodeMirror e v,
            fun e => restoreTextarea_id host _ e v, fun e => restoreTextarea_kind host _ e v,
            rfl⟩)
        · exact Or.inr (Or.inl rfl)

theorem restoreStep_shape (host : Host) (props : List (String × JsVal)) (pg : Page)
    (k : String) :
    restoreStep host props pg k = none ∨ restoreStep host props pg k = some pg ∨
    ∃ F : Element → Element, (∀ e, (F e).id = e.id) ∧ (∀ e, (F e).kind = e.kind) ∧
      restoreStep host props pg k = some (pg.update k F) := by
  unfold restoreStep
  cases props.lookup k with
  | none => exact Or.inr (Or.inl rfl)
  | some v => exact restoreField_shape host pg k v

theorem restoreStep_other (host : Host) (props : List (String × JsVal)) (pg pg1 : Page)
    (k c : String) (hstep : restoreStep host props pg k = some pg1) (h : k ≠ c) :
    getElementById pg1 c = getElementById pg c := by
  rcases restoreStep_shape host props pg k with h0 | h0 | ⟨F, hF, _, h0⟩
  · rw [hstep] at h0
    cases h0
  · rw [hstep] at h0
    cases h0
    rfl
  · rw [hstep] at h0
    cases h0
    exact getElementById_update_ne pg k c F hF h

/-- A turn of the loop changes nothing but elements of the document. -/
theorem restoreStep_rest (host : Host) (props : List (String × JsVal)) (pg pg1 : Page)
    (k : String) (hstep : restoreStep host props pg k = some pg1) : pg1.rest = pg.rest := by
  rcases restoreStep_shape host props pg k with h0 | h0 | ⟨F, _, _, h0⟩
  · rw [hstep] at h0
    cases h0
  · rw [hstep] at h0
    cases h0
    rfl
  · rw [hstep] at h0
    cases h0
    rfl

/-- A turn of the loop keeps the kind of every element. -/
theorem restoreStep_kind (host : Host) (props : List (String × JsVal)) (pg pg1 : Page)
    (k c : String) (hstep : restoreStep host props pg k = some pg1) :
    (getElementById pg1 c).map Element.kind = (getElementById pg c).map Element.kind := by
  rcases restoreStep_shape host props pg k with h0 | h0 | ⟨F, hF, hK, h0⟩
  · rw [hstep] at h0
    cases h0
  · rw [hstep] at h0
    cases h0
    rfl
  · rw [hstep] at h0
    cases h0
    exact getElementById_update_kind pg k c F hF hK

theorem forEachField_cons_some (step : Page → String → Option Page) (k : String)
    (ks : List String) (pg pg1 : Page) (h : step pg k = some pg1) :
    forEachField step (k :: ks) pg = forEachField step ks pg1 := by
  simp [forEachField, h]

theorem forEachField_cons_none (step : Page → String → Option Page) (k : String)
    (ks : List String) (pg : Page) (h : step pg k = none) :
    forEachField step (k :: ks) pg = (pg, false) := by
  simp [forEachField, h]

theorem forEach_restore_rest (host : Host) (props : List (String × JsVal))
    (ks : List String) (pg : Page) :
    (forEachField (restoreStep host props) ks pg).1.rest = pg.rest := by
  induction ks generalizing pg with
  | nil => rfl
  | cons k ks ih =>
    cases hstep : restoreStep host props pg k with
    | none => rw [forEachField_cons_none _ _ _ _ hstep]
    | some pg1 =>
      rw [forEachField_cons_some _ _ _ _ _ hstep, ih]
      exact restoreStep_rest host props pg pg1 k hstep

/-- The loop of `loadStageData` leaves every element whose id is not a key
untouched, whether it runs to its end or is ended by an exception. -/
theorem forEach_restore_frame (host : Host) (props : List (String × JsVal)) (ks : List String)
    (pg : Page) (c : String) (hc : c ∉ ks) :
    getElementById (forEachField (restoreStep host props) ks pg).1 c = getElementById pg c := by
  induction ks generalizing pg with
  | nil => rfl
  | cons k ks ih =>
    have hk : k ≠ c := fun e => hc (by simp [e])
    have hks : c ∉ ks := fun e => hc (by simp [e])
    cases hstep : restoreStep host props pg k with
    | none => rw [forEachField_cons_none _ _ _ _ hstep]
    | some pg1 =>
      rw [forEachField_cons_some _ _ _ _ _ hstep, ih _ hks]
      exact restoreStep_other host props pg pg1 k c hstep hk

theorem restoreFields_frame (host : Host) (props : List (String × JsVal)) (pg : Page)
    (c : String) (hc : c ∉ props.map Prod.fst) :
    getElementById (restoreFields host props pg).1 c = getElementById pg c :=
  forEach_restore_frame host props (props.map Prod.fst) pg c hc

/-- A turn of the loop for a key whose element takes the assigned text without
throwing does not throw. -/
theorem restoreStep_some (host : Host) (props : List (String × JsVal)) (pg : Page) (k : String)
    (hsafe : ∀ el v, getElementById pg k = some el → props.lookup k = some v →
      valueThrows el (domString host el.tagName v) = false) :
    ∃ pg1, restoreStep host props pg k = some pg1 := by
  unfold restoreStep
  cases hl : props.lookup k with
  | none => exact ⟨pg, rfl⟩
  | some v =>
    dsimp only
    unfold restoreField
    cases hel : getElementById pg k with
    | none => exact ⟨pg, rfl⟩
    | some el =>
      dsimp only
      have hno := hsafe el v hel hl
      split
      · exact ⟨_, rfl⟩
      · split
        · rw [hno]
          exact ⟨_, rfl⟩
        · split
          · exact ⟨_, rfl⟩
          · exact ⟨_, rfl⟩

/-- After a turn of the loop the assignments that did not throw before it
still do not throw. -/
theorem restoreStep_keeps_safe (host : Host) (props : List (String × JsVal)) (pg pg1 : Page)
    (k : String) (hstep : restoreStep host props pg k = some pg1) (ks : List String)
    (hsafe : ∀ k' ∈ ks, ∀ el v, getElementById pg k' = some el → props.lookup k' = some v →
      valueThrows el (domString host el.tagName v) = false) :
    ∀ k' ∈ ks, ∀ el v, getElementById pg1 k' = some el → props.lookup k' = some v →
      valueThrows el (domString host el.tagName v) = false := by
  intro k' hk' el v hel hv
  have hkind := restoreStep_kind host props pg pg1 k k' hstep
  rw [hel] at hkind
  cases hold : getElementById pg k' with
  | none => rw [hold] at hkind; cases hkind
  | some el' =>
    rw [hold] at hkind
    have hk : el.kind = el'.kind := Option.some.inj hkind
    have htag : el.tagName = el'.tagName := congrArg Prod.fst hk
    rw [valueThrows_congr el el' _ hk, htag]
    exact hsafe k' hk' el' v hold hv

/-- The loop of `loadStageData` runs to its end when no assignment throws. -/
theorem forEach_restore_completes (host : Host) (props : List (String × JsVal))
    (ks : List String) (pg : Page)
    (hsafe : ∀ k ∈ ks, ∀ el v, getElementById pg k = some el → props.lookup k = some v →
      valueThrows el (domString host el.tagName v) = false) :
    (forEachField (restoreStep host props) ks pg).2 = true := by
  induction ks generalizing pg with
  | nil => rfl
  | cons k ks ih =>
    obtain ⟨pg1, hstep⟩ := restoreStep_some host props pg k (hsafe k (by simp))
    rw [forEachField_cons_some _ _ _ _ _ hstep]
    exact ih pg1 (restoreStep_keeps_safe host props pg pg1 k hstep ks
      (fun k' hk' => hsafe k' (by simp [hk'])))

/-- A turn of the loop for the key of a form control that takes the text `s`
without throwing leaves in it what the control makes of `s`. -/
theorem restoreStep_same (host : Host) (props : List (String × JsVal)) (pg : Page)
    (k s : String) (el : Element) (hl : props.lookup k = some (.str s))
    (hel : getElementById pg k = some el) (hform : isFormControl el)
    (hno : valueThrows el s = false) :
    ∃ pg1 el', restoreStep host props pg k = some pg1 ∧ getElementById pg1 k = some el' ∧
      el'.kind = el.kind ∧ el'.value = some (acceptedValue host el s) := by
  unfold restoreStep
  rw [hl]
  dsimp only
  unfold restoreField
  rw [hel]
  dsimp only [JsVal.isUndefined, domString]
  rw [if_neg (by simp)]
  by_cases h1 : el.tagName = "SELECT" ∨ el.tagName = "INPUT"
  · rw [if_pos h1, hno]
    refine ⟨_, setValue host el (.str s), rfl, ?_, rfl, rfl⟩
    rw [getElementById_update_same pg k (fun e => setValue host e (.str s)) (fun _ => rfl), hel]
    rfl
  · have h2 : el.tagName = "TEXTAREA" := by
      rcases hform with h | h | h
      · exact absurd (Or.inl h) h1
      · exact absurd (Or.inr h) h1
      · exact h
    rw [if_neg h1, if_pos h2]
    refine ⟨_, restoreTextarea host pg.hasCodeMirror el (.str s), rfl, ?_,
      restoreTextarea_kind host _ el _, restoreTextarea_value host _ el _⟩
    rw [getElementById_update_same pg k
      (fun e => restoreTextarea host pg.hasCodeMirror e (.str s))
      (fun e => restoreTextarea_id host _ e _), hel]
    rfl

/-- The loop of `loadStageData`, when no assignment throws, runs to its end
and leaves in a form control named by a key what the control makes of the
key's text. -/
theorem forEach_restore_effect (host : Host) (props : List (String × JsVal)) (f s : String)
    (hl : props.lookup f = some (.str s)) (ks : List String) (pg : Page) (el0 : Element)
    (hel0 : getElementById pg f = some el0) (hform : isFormControl el0)
    (hsafe : ∀ k ∈ ks, ∀ el v, getElementById pg k = some el → props.lookup k = some v →
      valueThrows el (domString host el.tagName v) = false)
    (hp : f ∈ ks ∨ el0.value = some (acceptedValue host el0 s)) :
    (forEachField (restoreStep host props) ks pg).2 = true ∧
    ∃ el, getElementById (forEachField (restoreStep host props) ks pg).1 f = some el ∧
      el.kind = el0.kind ∧ el.value = some (acceptedValue host el0 s) := by
  induction ks generalizing pg el0 with
  | nil =>
    rcases hp with h | h
    · simp at h
    · exact ⟨rfl, el0, hel0, rfl, h⟩
  | cons k ks ih =>
    have hsafek := hsafe k (by simp)
    have hnext : ∀ pg1, restoreStep host props pg k = some pg1 →
        ∀ k' ∈ ks, ∀ el v, getElementById pg1 k' = some el → props.lookup k' = some v →
          valueThrows el (domString host el.tagName v) = false :=
      fun pg1 hstep => restoreStep_keeps_safe host props pg pg1 k hstep ks
        (fun k' hk' => hsafe k' (by simp [hk']))
    by_cases hk : k = f
    · subst hk
      have hform' : isFormControl el0 := hform
      have hno : valueThrows el0 s = false := by
        have := hsafek el0 (.str s) hel0 hl
        simpa [domString] using this
      obtain ⟨pg1, el1, hstep, hel1, hkind1, hval1⟩ :=
        restoreStep_same host props pg k s el0 hl hel0 hform hno
      rw [forEachField_cons_some _ _ _ _ _ hstep]
      have htag : el1.tagName = el0.tagName := congrArg Prod.fst hkind1
      have hform1 : isFormControl el1 := by
        unfold isFormControl at hform ⊢
        rw [htag]
        exact hform
      obtain ⟨hdone, el, hel, hkind, hval⟩ :=
        ih pg1 el1 hel1 hform1 (hnext pg1 hstep)
          (Or.inr (by rw [hval1, acceptedValue_congr host el1 el0 s hkind1]))
      refine ⟨hdone, el, hel, hkind.trans hkind1, ?_⟩
      rw [hval, acceptedValue_congr host el1 el0 s hkind1]
    · obtain ⟨pg1, hstep⟩ := restoreStep_some host props pg k hsafek
      rw [forEachField_cons_some _ _ _ _ _ hstep]
      have hsame := restoreStep_other host props pg pg1 k f hstep hk
      refine ih pg1 el0 (hsame.trans hel0) hform (hnext pg1 hstep) ?_
      rcases hp with h | h
      · left
        rcases List.mem_cons.mp h with h' | h'
        · exact absurd h'.symm hk
        · exact h'
      · exact Or.inr h

theorem loadStageData_of_parsed (host : Host) (stageKey : String) (pg : Page) (saved : String)
    (data : JsVal) (props : List (String × JsVal)) (hs : getItem pg stageKey = some saved)
    (hne : saved ≠ "") (hp : host.parse saved = some data) (hk : data.ownProps = some props) :
    loadStageData host stageKey pg
      = ((restoreFields host props pg).1,
          if (restoreFields host props pg).2 then some data else none) := by
  simp only [loadStageData, loadStageDataBody, hs, hne, hp, hk, if_false]
  rcases restoreFields host props pg with ⟨pg1, b⟩
  cases b <;> rfl

/-! ## Tab activation and the persisted stage record -/

set_option maxRecDepth 100000 in
/-- C3 fails on the code: `activateTab(tabId)` calls `loadStageData(tabId)`,
so it reads the store under the tab id `p0` and not under `STORAGE_KEYS.p0`.
After stage 0 has been auto-saved with screen name `Home` and the field
changed to `Other`, loading under the storage key restores `Home`, while
`activateTab("p0")` finds nothing stored and leaves `Other`. -/
theorem activateTab_reads_store_under_tab_id :
    STORAGE_KEYS "p0" = some stage0Key ∧
    fieldValue stage0Form "screenName" = some "Home" ∧
    fieldValue stage0Edited "screenName" = some "Other" ∧
    fieldValue (loadStageData sampleHost stage0Key stage0Edited).1 "screenName" = some "Home" ∧
    getItem stage0Edited "p0" = none ∧
    (loadStageData sampleHost "p0" stage0Edited).2.isNone = true ∧
    fieldValue (activateTab sampleHost "p0" stage0Edited) "screenName" = some "Other" := by
  decide

/-! ## Auto-save and restore -/

/-- C4 as stated fails: field `a` holds ` 1 ` (padded with blanks) when the
auto-save listener runs; the saved record and the restored field hold `1`.
A `select` whose chosen option has the padded value ` L ` is saved as `L`,
which none of its options has, and is left empty by the restore.  A file input
with a chosen file makes the restore throw: `loadStageData` returns `null` and
the field after it in the record keeps its edited value. -/
theorem autoSave_restore_trims_padding :
    fieldValue abcForm "a" = some " 1 " ∧
    ((loadStageData sampleHost "k" abcSaved).2.bind fun data => (data.get "a").asString)
      = some "1" ∧
    fieldValue (loadStageData sampleHost "k" abcSaved).1 "a" = some "1" ∧
    fieldValue (loadStageData sampleHost "k" abcSaved).1 "a" ≠ fieldValue abcForm "a" ∧
    fieldValue sizeForm "size" = some " L " ∧
    ((loadStageData sampleHost "k" sizeSaved).2.bind fun data => (data.get "size").asString)
      = some "L" ∧
    fieldValue (loadStageData sampleHost "k" sizeSaved).1 "size" = some "" ∧
    fieldValue uploadForm "note" = some "n" ∧
    fieldValue uploadSaved "note" = some "edited" ∧
    (loadStageData sampleHost "k" uploadSaved).2.isNone = true ∧
    fieldValue (loadStageData sampleHost "k" uploadSaved).1 "note" = some "edited" := by
  decide

/-- C4 (amended): let the auto-save listener for `fields` save the page `pg`
under `stageKey`, and let `later` be any page whose store still holds that
text under `stageKey` (the form may have been edited meanwhile).  If the
host's JSON functions round-trip the saved record and no declared field is a
file input of `later` for which a non-empty text was saved (the assignment to
it would throw), then `loadStageData` returns that record, in which every
declared field `f` (other than `__proto__`) has the white-space-trimmed value
`jsTrim v` of the value `v` it held at save time, and leaves in the field, when
it is an input, select or textarea of `later`, what that control makes of the
trimmed value: a `select` takes it when one of its options has that value and
is left empty otherwise, an `input` holds its sanitised form (a file input
stays empty), a `textarea` the text with its line breaks normalised.  A field
is restored to exactly the value `v` when `v` has no leading or trailing white
space and the control takes it as it is. -/
theorem autoSave_restore_roundtrip (host : Host) (stageKey : String) (fields : List String)
    (pg later : Page) (f v : String)
    (hjson : host.roundTrips (.obj (snapshot pg fields)))
    (hstored : getItem later stageKey
      = getItem (autoSaveInput host stageKey fields pg) stageKey)
    (hfile : restorable pg later fields = true)
    (hf : f ∈ fields) (hname : f ≠ "__proto__")
    (hv : fieldValue pg f = some v) :
    (loadStageData host stageKey later).2 = some (.obj (snapshot pg fields)) ∧
    (JsVal.obj (snapshot pg fields)).get f = .str (jsTrim v) ∧
    (∀ el, getElementById later f = some el → isFormControl el →
      fieldValue (loadStageData host stageKey later).1 f
        = some (acceptedValue host el (jsTrim v)) ∧
      (el.tagName = "SELECT" → jsTrim v ∈ el.options →
        fieldValue (loadStageData host stageKey later).1 f = some (jsTrim v)) ∧
      (el.tagName = "SELECT" → jsTrim v ∉ el.options →
        fieldValue (loadStageData host stageKey later).1 f = some "") ∧
      (el.tagName = "INPUT" → el.inputType = "file" →
        jsTrim v = "" ∧ fieldValue (loadStageData host stageKey later).1 f = some "") ∧
      (el.tagName = "INPUT" → el.inputType ≠ "file" →
        host.sanitize el.inputType (jsTrim v) = jsTrim v →
        fieldValue (loadStageData host stageKey later).1 f = some (jsTrim v)) ∧
      (el.tagName = "TEXTAREA" → '\r' ∉ (jsTrim v).data →
        fieldValue (loadStageData host stageKey later).1 f = some (jsTrim v)) ∧
      (acceptedValue host el (jsTrim v) = jsTrim v → jsTrim v = v →
        fieldValue (loadStageData host stageKey later).1 f = some v)) := by
  have hsv : safeValue pg f = jsTrim v := safeValue_of_fieldValue pg f v hv
  have hlook : (snapshot pg fields).lookup f = some (.str (jsTrim v)) := by
    rw [← hsv]; exact lookup_snapshot pg fields f hf hname
  have hput : ∀ (st : List (String × String)) (k x : String),
      (putItem st k x).lookup k = some x := by
    intro st k x
    induction st with
    | nil => simp [putItem, List.lookup]
    | cons kv rest ih =>
      obtain ⟨k', x'⟩ := kv
      by_cases h : k' = k
      · subst h
        simp [putItem, List.lookup]
      · have hb : (k == k') = false := by simpa using fun e : k = k' => h e.symm
        simp [putItem, h, List.lookup, hb, ih]
  have hs : getItem later stageKey = some (host.stringify (.obj (snapshot pg fields))) := by
    rw [hstored]
    simp [getItem, autoSaveInput, saveStageData, setItem, hput]
  have hload := loadStageData_of_parsed host stageKey later _ _ _ hs hjson.1 hjson.2 rfl
  have hrest : ∀ g ∈ fields, ∀ el, getElementById later g = some el →
      valueThrows el (safeValue pg g) = false := by
    intro g hg el hel
    have h := List.all_eq_true.mp hfile g hg
    rw [hel] at h
    simpa using h
  have hsafe : ∀ k ∈ (snapshot pg fields).map Prod.fst, ∀ el w,
      getElementById later k = some el → (snapshot pg fields).lookup k = some w →
      valueThrows el (domString host el.tagName w) = false := by
    intro k _ el w hel hw
    obtain ⟨hk, hwv⟩ := lookup_snapshot_some pg fields k w hw
    rw [hwv]
    exact hrest k hk el hel
  have hkeys : f ∈ (snapshot pg fields).map Prod.fst := mem_keys_of_lookup _ _ _ hlook
  have hdone : ∀ el, getElementById later f = some el → isFormControl el →
      fieldValue (restoreFields host (snapshot pg fields) later).1 f
        = some (acceptedValue host el (jsTrim v)) := by
    intro el hel hform
    obtain ⟨_, el', hel', _, hv'⟩ :=
      forEach_restore_effect host (snapshot pg fields) f (jsTrim v) hlook
        ((snapshot pg fields).map Prod.fst) later el hel hform hsafe (Or.inl hkeys)
    have hel'' : getElementById (restoreFields host (snapshot pg fields) later).1 f = some el' :=
      hel'
    simp [fieldValue, hel'', hv']
  have hrun : (restoreFields host (snapshot pg fields) later).2 = true :=
    forEach_restore_completes host (snapshot pg fields) _ later hsafe
  refine ⟨by rw [hload, hrun]; rfl, ?_, ?_⟩
  · simp [JsVal.get, JsVal.ownProps, hlook]
  · intro el hel hform
    have hval : fieldValue (loadStageData host stageKey later).1 f
        = some (acceptedValue host el (jsTrim v)) := by
      rw [hload]
      exact hdone el hel hform
    refine ⟨hval, ?_, ?_, ?_, ?_, ?_, ?_⟩
    · intro htag hopt
      rw [hval]
      simp [acceptedValue, htag, hopt]
    · intro htag hopt
      rw [hval]
      simp [acceptedValue, htag, hopt]
    · intro htag htype
      have hno := hrest f hf el hel
      have hempty : jsTrim v = "" := by
        rw [hsv] at hno
        simpa [valueThrows, htag, htype] using hno
      refine ⟨hempty, ?_⟩
      rw [hval]
      have hsel : el.tagName ≠ "SELECT" := by rw [htag]; decide
      simp [acceptedValue, htag, htype]
    · intro htag htype hsan
      rw [hval]
      simp [acceptedValue, htag, htype, hsan]
    · intro htag hcr
      rw [hval]
      have h := normalizeNewlines_of_no_cr _ hcr
      simp [acceptedValue, htag, h]
    · intro hacc hx
      rw [hval, hacc, hx]

/-- Witness for C4: fields `a` (holding ` 1 `) and `b` saved under `k`, then restored. -/
theorem autoSave_restore_roundtrip_witness :
    fieldValue (loadStageData sampleHost "k" abcSaved).1 "a" = some (jsTrim " 1 ") :=
  ((autoSave_restore_roundtrip sampleHost "k" ["a", "b"] abcForm abcSaved "a" " 1 "
      ⟨by decide, rfl⟩ rfl (by decide) (by decide) (by decide) (by decide)).2.2
    (inputEl "a" " 1 ") (by decide) (by decide)).2.2.2.2.1 rfl (by decide) (by decide)

/-- C5: when the text stored under `stageKey` parses to a record `R`,
`loadStageData` leaves every element whose id is not a key of `R` exactly as
it was (a field `c` holding `3` still holds `3`): only elements named by keys
of `R` are written, and nothing but elements of the document changes.  This
holds as well when an assignment throws and ends the restore early. -/
theorem loadStageData_partial_restore (host : Host) (stageKey : String) (pg : Page)
    (saved : String) (R : JsVal) (c : String)
    (hs : getItem pg stageKey = some saved)
    (hp : host.parse saved = some R)
    (hc : ∀ props, R.ownProps = some props → c ∉ props.map Prod.fst) :
    getElementById (loadStageData host stageKey pg).1 c = getElementById pg c ∧
    fieldValue (loadStageData host stageKey pg).1 c = fieldValue pg c ∧
    (loadStageData host stageKey pg).1.rest = pg.rest := by
  by_cases hne : saved = ""
  · have h : loadStageData host stageKey pg = (pg, none) := by
      simp [loadStageData, loadStageDataBody, hs, hne]
    rw [h]
    exact ⟨rfl, rfl, rfl⟩
  · cases hk : R.ownProps with
    | none =>
      have h : loadStageData host stageKey pg = (pg, none) := by
        simp [loadStageData, loadStageDataBody, hs, hne, hp, hk]
      rw [h]
      exact ⟨rfl, rfl, rfl⟩
    | some props =>
      have h := loadStageData_of_parsed host stageKey pg saved R props hs hne hp hk
      have hframe := restoreFields_frame host props pg c (hc props hk)
      rw [h]
      refine ⟨hframe, ?_, ?_⟩
      · simp only [fieldValue]
        rw [hframe]
      · exact forEach_restore_rest host props (props.map Prod.fst) pg

/-- Witness for C5: the record saved for `a` and `b` is restored into a form
where `c` holds `3`. -/
theorem loadStageData_partial_restore_witness :
    fieldValue (loadStageData sampleHost "k" abcSaved).1 "c" = some "3" :=
  (loadStageData_partial_restore sampleHost "k" abcSaved "\x7b\"a\":\"1\",\"b\":\"2\"\x7d"
    (.obj [("a", .str "1"), ("b", .str "2")]) "c"
    (by decide) rfl (fun props h => by cases h; decide)).2.1.trans (by decide)

/-- C7: `loadStageData` never raises: it is a total function, every exception
of its `try` block being caught.  When the exception is thrown before the loop
(by `JSON.parse` or `Object.keys`) the page is left unchanged and `null` is
returned.  In particular it returns `null` and changes nothing when nothing is
stored under the key and when the stored text cannot be parsed. -/
theorem loadStageData_tolerates_malformed (host : Host) (stageKey : String) (pg : Page) :
    (∀ err, loadStageDataBody host stageKey pg = .error err →
      loadStageData host stageKey pg = (pg, none)) ∧
    (getItem pg stageKey = none → loadStageData host stageKey pg = (pg, none)) ∧
    (∀ saved, getItem pg stageKey = some saved → host.parse saved = none →
      loadStageData host stageKey pg = (pg, none)) := by
  refine ⟨?_, ?_, ?_⟩
  · intro err h
    simp [loadStageData, h]
  · intro h
    simp [loadStageData, loadStageDataBody, h]
  · intro saved hs hp
    by_cases hne : saved = ""
    · simp [loadStageData, loadStageDataBody, hs, hne]
    · simp [loadStageData, loadStageDataBody, hs, hne, hp]

/-- Witness for C7: the text `not json` stored under the key of stage 2. -/
theorem loadStageData_tolerates_malformed_witness :
    (loadStageData sampleHost "pb_pipeline_stage2"
        { stage0Form with storage := [("pb_pipeline_stage2", "not json")] }).1
      = { stage0Form with storage := [("pb_pipeline_stage2", "not json")] } :=
  congrArg Prod.fst
    ((loadStageData_tolerates_malformed sampleHost "pb_pipeline_stage2"
        { stage0Form with storage := [("pb_pipeline_stage2", "not json")] }).2.2
      "not json" (by decide) rfl)

/-! ## Manual save and load of stage 0 -/

set_option maxRecDepth 100000 in
/-- C6 fails on the code: `saveStage0` stores the keys `screen`, `feature`
and `comps`, while `loadStage0` reads `data[id]` for the element ids
`screenName`, `featureDesc` and `components`.  After `saveStage0`, an edit of
all eight fields to `changed` and `loadStage0`, these three fields still hold
`changed`; the other five are back at their saved values. -/
theorem loadStage0_misses_renamed_keys :
    fieldValue stage0Form "screenName" = some "Home" ∧
    fieldValue stage0Form "featureDesc" = some "Feed" ∧
    fieldValue stage0Form "components" = some "Card" ∧
    (loadStage0 sampleHost stage0ManualEdited).2 = true ∧
    (loadStage0 sampleHost stage0ManualEdited).1.toasts
      = [("Stage 0 saved.", "ok"), ("Stage 0 loaded.", "ok")] ∧
    fieldValue (loadStage0 sampleHost stage0ManualEdited).1 "screenName" = some "changed" ∧
    fieldValue (loadStage0 sampleHost stage0ManualEdited).1 "featureDesc" = some "changed" ∧
    fieldValue (loadStage0 sampleHost stage0ManualEdited).1 "components" = some "changed" ∧
    fieldValue (loadStage0 sampleHost stage0ManualEdited).1 "collections" = some "posts" ∧
    fieldValue (loadStage0 sampleHost stage0ManualEdited).1 "reusable" = some "Modal" ∧
    fieldValue (loadStage0 sampleHost stage0ManualEdited).1 "designGuide" = some "dark" ∧
    fieldValue (loadStage0 sampleHost stage0ManualEdited).1 "role" = some "admin" ∧
    fieldValue (loadStage0 sampleHost stage0ManualEdited).1 "output0" = some "PROMPT" := by
  decide

/-! ## Tab activation with an unknown id -/

set_option maxRecDepth 100000 in
/-- C8 fails on the code: the ids `p7` and `P1` pass the test
`/^[pP]\d$/`, so `activateTab` hides every stage view before it finds that no
such element exists.  With stage `p0` shown, the call reports
`Tab not found` and leaves no view shown.  Ids that fail the test (`x`, the
empty string) are rejected with `Invalid tab ID.` and no other change. -/
theorem activateTab_unknown_id_hides_views :
    visibleViews stage0Form = ["p0"] ∧
    getElementById stage0Form "p7" = none ∧
    visibleViews (activateTab sampleHost "p7" stage0Form) = [] ∧
    (activateTab sampleHost "p7" stage0Form).toasts = [("Tab not found: p7", "error")] ∧
    visibleViews (activateTab sampleHost "P1" stage0Form) = [] ∧
    (activateTab sampleHost "P1" stage0Form).toasts = [("Tab not found: P1", "error")] ∧
    activateTab sampleHost "x" stage0Form = toast stage0Form "Invalid tab ID." "error" ∧
    activateTab sampleHost "" stage0Form = toast stage0Form "Invalid tab ID." "error" := by
  decide

/-! ## The file collection -/

/-- C9 fails on the code: `escapeHtml` leaves `<` as it is, so a content
holding `</textarea>` closes the row's textarea early.  For every host and
page, `addFile("a.js", "x</textarea>y")` appends an entry whose content is
`x`. -/
theorem addFile_truncates_at_textarea_end (host : Host) (pg : Page) :
    escapeHtml (.str "x</textarea>y") = "x</textarea>y" ∧
    (addFile host (.str "a.js") (.str "x</textarea>y") pg).1.editors
      = pg.editors ++
          [{ id := "f" ++ host.random pg.randomCalls, row := pg.rowsCreated, fname := "a.js",
             content := "x" }] ∧
    (addFile host (.str "a.js") (.str "x</textarea>y") pg).2
      = some ("f" ++ host.random pg.randomCalls) := by
  have h1 : escapeHtml (.str "x</textarea>y") = "x</textarea>y" := by decide
  have h2 : textareaValue "x</textarea>y" = "x" := by decide
  have h3 : fnameValue (escapeHtml (.str "a.js")) = "a.js" := by decide
  refine ⟨h1, ?_, ?_⟩
  · simp [addFile, defaultEmpty, JsVal.isString, h1, h2, h3, saveFiles, scanDuplicates,
      updateStats, setItem, Page.update]
  · simp [addFile, defaultEmpty, JsVal.isString]

/-- C10: the `Remove` listener filters `editors` by id.  When the ids of the
collection are pairwise distinct, removing id `i` deletes exactly the entry
with that id and keeps all other entries, unchanged and in order; when no
entry has id `i` the collection is unchanged. -/
theorem removeClick_removes_exactly (host : Host) (row : Nat) (i : String) (pg : Page)
    (hdistinct : (pg.editors.map fun e => e.id).Nodup) :
    (removeClick host row i pg).editors = pg.editors.filter (fun e => e.id ≠ i) ∧
    (∀ (before after : List Editor) (e : Editor),
      pg.editors = before ++ e :: after → e.id = i →
      (removeClick host row i pg).editors = before ++ after) ∧
    ((∀ e ∈ pg.editors, e.id ≠ i) → (removeClick host row i pg).editors = pg.editors) := by
  have hfilter : (removeClick host row i pg).editors = pg.editors.filter (fun e => e.id ≠ i) :=
    rfl
  refine ⟨hfilter, ?_, ?_⟩
  · intro before after e hsplit hid
    rw [hfilter, hsplit]
    rw [hsplit] at hdistinct
    simp only [List.map_append, List.map_cons] at hdistinct
    have hnd := List.nodup_append.mp hdistinct
    have hcons := List.nodup_cons.mp hnd.2.1
    have hbefore : ∀ a ∈ before, a.id ≠ i := by
      intro a ha heq
      exact hnd.2.2 (List.mem_map.mpr ⟨a, ha, rfl⟩) (by rw [heq, ← hid]; simp)
    have hafter : ∀ a ∈ after, a.id ≠ i := by
      intro a ha heq
      exact hcons.1 (by rw [hid, ← heq]; exact List.mem_map.mpr ⟨a, ha, rfl⟩)
    have hb : before.filter (fun e => e.id ≠ i) = before :=
      List.filter_eq_self.mpr fun a ha => by simpa using hbefore a ha
    have ha : after.filter (fun e => e.id ≠ i) = after :=
      List.filter_eq_self.mpr fun a ha => by simpa using hafter a ha
    rw [List.filter_append, hb, List.filter_cons, ha]
    simp [hid]
  · intro hnone
    rw [hfilter]
    exact List.filter_eq_self.mpr fun a ha => by simpa using hnone a ha

/-- Witness for C10: removing `a.js` from the collection `a.js`, `b.js`
leaves exactly `b.js`. -/
theorem removeClick_removes_exactly_witness :
    (removeClick sampleHost 0 "fr0" twoFiles).editors
      = [{ id := "fr1", row := 1, fname := "b.js", content := "y" }] :=
  (removeClick_removes_exactly sampleHost 0 "fr0" twoFiles (by decide)).2.1 []
    [{ id := "fr1", row := 1, fname := "b.js", content := "y" }]
    { id := "fr0", row := 0, fname := "a.js", content := "x" } rfl rfl

/-! ## Lemmas on templates -/

theorem template_data (pieces : List String) :
    (template pieces).data = pieces.flatMap String.data := rfl

/-- A run of consecutive pieces of a template occurs in its text. -/
theorem occursIn_template (pieces mid : List String) (n : Nat)
    (h : pieces = pieces.take n ++ (mid ++ pieces.drop (n + mid.length))) :
    occursIn (template mid) (template pieces) := by
  unfold occursIn
  rw [template_data, template_data]
  refine ⟨(pieces.take n).flatMap String.data,
    (pieces.drop (n + mid.length)).flatMap String.data, ?_⟩
  conv => rhs; rw [h]
  simp [List.flatMap_append]

theorem sum_units_dropWhile_le (p : Char → Bool) (l : List Char) :
    ((l.dropWhile p).map utf16Units).sum ≤ (l.map utf16Units).sum := by
  induction l with
  | nil => simp
  | cons c cs ih =>
    by_cases hc : p c = true
    · simp only [List.dropWhile, hc, List.map_cons, List.sum_cons]
      omega
    · simp [List.dropWhile, hc]

/-- Trimming never lengthens a string. -/
theorem jsLength_jsTrim_le (v : String) : jsLength (jsTrim v) ≤ jsLength v := by
  unfold jsLength jsTrim trimChars
  simp only [List.map_reverse, List.sum_reverse]
  have h1 := sum_units_dropWhile_le isJsWhitespace (v.data.dropWhile isJsWhitespace).reverse
  have h2 := sum_units_dropWhile_le isJsWhitespace v.data
  simp only [List.map_reverse, List.sum_reverse] at h1
  omega

theorem orElse_ne_empty (a b : String) (hb : b ≠ "") : orElse a b ≠ "" := by
  unfold orElse
  split
  · exact hb
  · assumption

/-! ## `escapeHtml` -/

/-- C19 fails on the code: `escapeHtml` replaces `<` by `<` and `>` by `>`,
so both characters survive (`<b>` is returned as it is), while `&`, the double
quote and the apostrophe are replaced by their entities and a non-string
argument gives the empty string. -/
theorem escapeHtml_keeps_angle_brackets :
    escapeHtml (.str "<b>") = "<b>" ∧
    '<' ∈ (escapeHtml (.str "<b>")).data ∧
    '>' ∈ (escapeHtml (.str "<b>")).data ∧
    escapeHtml (.str "a & \"b\" \x27c\x27") = "a &amp; &quot;b&quot; &#039;c&#039;" ∧
    escapeHtml .null = "" ∧
    escapeHtml (.num "5") = "" ∧
    escapeHtml .undefined = "" := by
  decide

/-! ## The context record `ctx()` -/

/-- C17 as stated fails: on a form whose fields are all missing, the fields
`constraints`, `code` and `useCase` of `ctx()` are empty strings. -/
theorem ctx_empty_form_has_empty_fields :
    (ctx sampleHost { }).constraints = "" ∧
    (ctx sampleHost { }).code = "" ∧
    (ctx sampleHost { }).useCase = "" ∧
    (ctx sampleHost { }).module = "core" ∧
    (ctx sampleHost { }).dependencies = "high" := by
  decide

/-- C17 (amended): for every state of the form, the fields `project`,
`module`, `serviceName`, `language`, `collections`, `security`, `style` and
`dependencies` of `ctx()` are non-empty strings, and so is `projectType` when
the project-type field does not name a property inherited from
`Object.prototype`; `module` is `core` and `dependencies` is `high` when those
fields are empty.  The fields `constraints`, `code` and `useCase` have no
fallback: they are the trimmed field values, which may be empty. -/
theorem ctx_defaults (host : Host) (pg : Page) :
    (ctx host pg).project ≠ "" ∧
    (ctx host pg).module ≠ "" ∧
    (ctx host pg).serviceName ≠ "" ∧
    (ctx host pg).language ≠ "" ∧
    (ctx host pg).collections ≠ "" ∧
    (ctx host pg).security ≠ "" ∧
    (ctx host pg).style ≠ "" ∧
    (ctx host pg).dependencies ≠ "" ∧
    (host.inheritedText (safeValue pg "projectType") = none → (ctx host pg).projectType ≠ "") ∧
    (safeValue pg "module" = "" → (ctx host pg).module = "core") ∧
    (safeValue pg "dependencies" = "" → (ctx host pg).dependencies = "high") ∧
    (ctx host pg).constraints = safeValue pg "constraints" ∧
    (ctx host pg).code = safeValue pg "code" ∧
    (ctx host pg).useCase = safeValue pg "useCase" := by
  refine ⟨orElse_ne_empty _ _ (by decide), orElse_ne_empty _ _ (by decide),
    orElse_ne_empty _ _ (by decide), orElse_ne_empty _ _ (by decide),
    orElse_ne_empty _ _ (by decide), orElse_ne_empty _ _ (by decide),
    orElse_ne_empty _ _ (by decide), orElse_ne_empty _ _ (by decide), ?_, ?_, ?_, rfl, rfl, rfl⟩
  · intro hkey
    show (if safeValue pg "projectType" = "custom" then
        orElse (safeValue pg "customProjectType") "custom project"
      else projectTypeText host (safeValue pg "projectType")) ≠ ""
    split
    · exact orElse_ne_empty _ _ (by decide)
    · unfold projectTypeText
      simp only [hkey]
      repeat' split
      all_goals decide
  · intro h
    show orElse (safeValue pg "module") "core" = "core"
    simp [orElse, h]
  · intro h
    show orElse (safeValue pg "dependencies") "high" = "high"
    simp [orElse, h]

/-- Witness for C17: the form whose fields are all missing. -/
theorem ctx_defaults_witness :
    (ctx sampleHost { }).projectType ≠ "" ∧
    (ctx sampleHost { }).module = "core" ∧
    (ctx sampleHost { }).dependencies = "high" :=
  ⟨(ctx_defaults sampleHost { }).2.2.2.2.2.2.2.2.1 rfl,
   (ctx_defaults sampleHost { }).2.2.2.2.2.2.2.2.2.1 (by decide),
   (ctx_defaults sampleHost { }).2.2.2.2.2.2.2.2.2.2.1 (by decide)⟩

/-! ## Lemmas on substrings -/

theorem template_single (a : String) : template [a] = a := by
  simp [template]

theorem template_pair (a b : String) : template [a, b] = a ++ b := by
  simp [template]
  rfl

theorem dropWhile_append_cons (p : Char → Bool) (a : List Char) (c : Char) (rest : List Char)
    (hc : p c = false) : (a ++ c :: rest).dropWhile p = a.dropWhile p ++ c :: rest := by
  induction a with
  | nil => simp [List.dropWhile, hc]
  | cons x a ih =>
    by_cases hx : p x = true
    · simp [List.dropWhile, hx, ih]
    · simp [List.dropWhile, hx]

/-- A text that starts and ends with a character other than white space
still occurs after trimming. -/
theorem infix_trimChars (l mid : List Char) (c d : Char) (hc : isJsWhitespace c = false)
    (hd : isJsWhitespace d = false) (h : (c :: (mid ++ [d])) <:+: l) :
    (c :: (mid ++ [d])) <:+: trimChars l := by
  obtain ⟨a, b, hab⟩ := h
  have h1 : l.dropWhile isJsWhitespace
      = a.dropWhile isJsWhitespace ++ c :: (mid ++ d :: b) := by
    rw [← hab]
    have : a ++ c :: (mid ++ [d]) ++ b = a ++ c :: (mid ++ d :: b) := by simp
    rw [this, dropWhile_append_cons _ _ _ _ hc]
  have h2 : (l.dropWhile isJsWhitespace).reverse
      = b.reverse ++ d :: (mid.reverse ++ c :: (a.dropWhile isJsWhitespace).reverse) := by
    rw [h1]
    simp
  unfold trimChars
  rw [h2, dropWhile_append_cons _ _ _ _ hd]
  refine ⟨a.dropWhile isJsWhitespace, (b.reverse.dropWhile isJsWhitespace).reverse, ?_⟩
  simp

/-- Every line occurs in the joined text. -/
theorem occursIn_joinLines (lines : List String) (line : String) (h : line ∈ lines) :
    occursIn line (joinLines lines) := by
  unfold occursIn
  induction lines with
  | nil => simp at h
  | cons s rest ih =>
    cases rest with
    | nil =>
      simp only [List.mem_singleton] at h
      subst h
      exact List.infix_refl _
    | cons t rest' =>
      have hdata : (joinLines (s :: t :: rest')).data
          = s.data ++ ("\n".data ++ (joinLines (t :: rest')).data) := by
        simp [joinLines, String.data_append]
      rw [hdata]
      rcases List.mem_cons.mp h with h' | h'
      · subst h'
        exact ⟨[], "\n".data ++ (joinLines (t :: rest')).data, by simp⟩
      · obtain ⟨a, b, hab⟩ := ih h'
        exact ⟨s.data ++ "\n".data ++ a, b, by simp [← hab]⟩

/-! ## Stage 4 and the code field -/

/-- C20: `prompt4` does not read the code field: replacing the code of a
context by any other text leaves `prompt4` unchanged (its fenced block embeds
`c.constraints`), although `safeGenerate` refuses stage-4 generation whenever
the code field has fewer than 10 characters; `prompt2`, `prompt3` and
`prompt5` each contain `c.code` verbatim. -/
theorem prompt4_ignores_code (host : Host) (c : Ctx) :
    (∀ code : String, prompt4 host { c with code := code } = prompt4 host c) ∧
    (∀ c2 : Ctx, { c with code := c2.code } = c2 → prompt4 host c = prompt4 host c2) ∧
    occursIn ("```" ++ c.language ++ " filename:" ++ c.serviceName ++ "\n" ++ c.constraints)
      (prompt4 host c) ∧
    occursIn c.code (prompt2 c) ∧
    occursIn c.code (prompt3 c) ∧
    occursIn c.code (prompt5 c) ∧
    (∀ (pg : Page) (v : String), fieldValue pg "code" = some v → jsLength v < 10 →
      safeGenerate host (prompt4 host) "out4" pg
        = toast pg "Please paste code to analyze (at least 10 characters)." "error") := by
  refine ⟨fun _ => rfl, fun c2 h => by rw [← h]; rfl, ?_, ?_, ?_, ?_, ?_⟩
  · have h : occursIn
        (template ["```", c.language, " filename:", c.serviceName, "\n", c.constraints])
        (prompt4 host c) := by
      unfold prompt4
      exact occursIn_template _ _ 21 rfl
    have ht : template ["```", c.language, " filename:", c.serviceName, "\n", c.constraints]
        = "```" ++ c.language ++ " filename:" ++ c.serviceName ++ "\n" ++ c.constraints := by
      apply String.ext
      simp [template, String.data_append]
    rwa [ht] at h
  · have h : occursIn (template [c.code]) (prompt2 c) := by
      unfold prompt2
      exact occursIn_template _ _ 28 rfl
    rwa [template_single] at h
  · have h : occursIn (template [c.code]) (prompt3 c) := by
      unfold prompt3
      exact occursIn_template _ _ 25 rfl
    rwa [template_single] at h
  · have h : occursIn (template [c.code]) (prompt5 c) := by
      unfold prompt5
      exact occursIn_template _ _ 25 rfl
    rwa [template_single] at h
  · intro pg v hv hlen
    have hsv : safeValue pg "code" = jsTrim v := safeValue_of_fieldValue pg "code" v hv
    have hc : (ctx host pg).code = jsTrim v := by simp [ctx, hsv]
    have hshort : codeTooShort (ctx host pg).code = true := by
      rw [hc, codeTooShort_trim]
      have := jsLength_jsTrim_le v
      simpa using (by omega : jsLength (jsTrim v) < 10)
    simp [safeGenerate, requireCode, hshort]

/-- Witness for C20: a code field of five characters on the stage form. -/
theorem prompt4_ignores_code_witness :
    safeGenerate sampleHost (prompt4 sampleHost) "out4" (stage2Page "short")
        = toast (stage2Page "short")
            "Please paste code to analyze (at least 10 characters)." "error" ∧
    prompt4 sampleHost (ctx sampleHost (stage2Page "short"))
      = prompt4 sampleHost (ctx sampleHost (stage2Page "another, longer code")) :=
  ⟨(prompt4_ignores_code sampleHost (ctx sampleHost (stage2Page "short"))).2.2.2.2.2.2
      (stage2Page "short") "short" (by decide) (by decide),
   (prompt4_ignores_code sampleHost (ctx sampleHost (stage2Page "short"))).2.1
      (ctx sampleHost (stage2Page "another, longer code")) (by decide)⟩

/-! ## The `filename:` tag of the generated prompts -/

theorem startsWith_append_true (l x m : List Char) (h : startsWith l x = true) :
    startsWith (l ++ m) x = true := by
  induction x generalizing l with
  | nil => cases l <;> simp [startsWith]
  | cons p ps ih =>
    cases l with
    | nil => simp [startsWith] at h
    | cons c cs =>
      simp only [startsWith, Bool.and_eq_true] at h
      simp only [List.cons_append, startsWith, Bool.and_eq_true]
      exact ⟨h.1, ih cs h.2⟩

theorem startsWith_length (l x : List Char) (h : startsWith l x = true) :
    x.length ≤ l.length := by
  induction x generalizing l with
  | nil => simp
  | cons p ps ih =>
    cases l with
    | nil => simp [startsWith] at h
    | cons c cs =>
      simp only [startsWith, Bool.and_eq_true] at h
      simp only [List.length_cons, Nat.add_le_add_iff_right]
      exact ih cs h.2

theorem startsWith_fence_head (c : Char) (l : List Char) (h : c ≠ '`') :
    startsWith (c :: l) "```".data = false := by
  have e : "```".data = ['`', '`', '`'] := by decide
  rw [e]
  simp [startsWith, h]

theorem startsWith_fence_near (c : Char) (rest more : List Char)
    (h : (rest.take 2).any (fun x => x ≠ '`') = true) :
    startsWith (c :: (rest ++ more)) "```".data = false := by
  have e : "```".data = ['`', '`', '`'] := by decide
  rw [e]
  cases rest with
  | nil => simp at h
  | cons x xs =>
    cases xs with
    | nil =>
      simp at h
      simp [startsWith, h]
    | cons y ys =>
      simp at h
      simp only [List.cons_append, startsWith]
      rcases h with h | h
      · simp [h]
      · simp [h]

/-- A closed piece settles the test on its own: the test of a text that
starts with it is the test of what follows it. -/
theorem fencesBare_closedPiece (p : List Char) (h : closedPiece p = true) (more : List Char) :
    fencesBare (p ++ more) = fencesBare more := by
  induction p with
  | nil => rfl
  | cons c rest ih =>
    simp only [closedPiece, Bool.and_eq_true] at h
    obtain ⟨hc, hrest⟩ := h
    have hhere : (!startsWith (c :: (rest ++ more)) "```".data ||
        startsWith ((rest ++ more).drop 2) "filename:".data ||
        startsWith ((rest ++ more).drop 2) "\n".data ||
        ((rest ++ more).drop 2).isEmpty) = true := by
      simp only [Bool.or_eq_true, Bool.and_eq_true, decide_eq_true_eq] at hc
      rcases hc with (hc | hnear) | ⟨hyes, hfollow⟩
      · have := startsWith_fence_head c (rest ++ more) hc
        simp [this]
      · have := startsWith_fence_near c rest more hnear
        simp [this]
      · have hlen := startsWith_length _ _ hyes
        have e : "```".data.length = 3 := by decide
        rw [e, List.length_cons] at hlen
        have hdrop : (rest ++ more).drop 2 = rest.drop 2 ++ more := by
          rw [List.drop_append_of_le_length (by omega)]
        rw [hdrop]
        rcases hfollow with hf | hf
        · simp [startsWith_append_true _ _ more hf]
        · simp [startsWith_append_true _ _ more hf]
    rw [List.cons_append, fencesBare, hhere, Bool.true_and]
    exact ih hrest

theorem closedPiece_of_backtickFree (s : String) (h : backtickFree s = true) :
    closedPiece s.data = true := by
  unfold backtickFree at h
  generalize s.data = l at h
  induction l with
  | nil => rfl
  | cons c rest ih =>
    simp only [List.all_cons, Bool.and_eq_true, decide_eq_true_eq] at h
    simp only [closedPiece, Bool.and_eq_true, Bool.or_eq_true, decide_eq_true_eq]
    exact ⟨Or.inl (Or.inl h.1), ih h.2⟩

/-- A template all of whose pieces are closed passes the test `fencesBare`. -/
theorem fencesBare_template (pieces : List String)
    (h : (pieces.all fun p => closedPiece p.data) = true) :
    fencesBare (template pieces).data = true := by
  rw [template_data]
  induction pieces with
  | nil => rfl
  | cons p rest ih =>
    simp only [List.all_cons, Bool.and_eq_true] at h
    rw [List.flatMap_cons, fencesBare_closedPiece _ h.1]
    exact ih h.2

theorem normalizeNewlines_cons (c : Char) (l : List Char) (hr : c ≠ '\r') :
    normalizeNewlines (c :: l) = c :: normalizeNewlines l := by
  rw [normalizeNewlines]
  all_goals (intros; simp_all)

theorem normalizeNewlines_crlf (l : List Char) :
    normalizeNewlines ('\r' :: '\n' :: l) = '\n' :: normalizeNewlines l := by
  rw [normalizeNewlines]

theorem normalizeNewlines_cr (l : List Char) (h : ∀ rest, l ≠ '\n' :: rest) :
    normalizeNewlines ('\r' :: l) = '\n' :: normalizeNewlines l := by
  rw [normalizeNewlines.eq_3]
  intro rest e
  exact h rest e

theorem normalizeNewlines_append_cons (X R : List Char) (c : Char) (hr : c ≠ '\r')
    (hn : c ≠ '\n') :
    normalizeNewlines (X ++ c :: R) = normalizeNewlines X ++ c :: normalizeNewlines R := by
  suffices hall : ∀ n (X : List Char), X.length = n →
      normalizeNewlines (X ++ c :: R) = normalizeNewlines X ++ c :: normalizeNewlines R from
    hall X.length X rfl
  intro n
  induction n using Nat.strong_induction_on with
  | _ n ih =>
    intro X hlen
    cases X with
    | nil => simp [normalizeNewlines_cons c R hr, normalizeNewlines]
    | cons x xs =>
      by_cases hx : x = '\r'
      · subst hx
        cases xs with
        | nil =>
          have h1 : normalizeNewlines ('\r' :: (c :: R)) = '\n' :: normalizeNewlines (c :: R) :=
            normalizeNewlines_cr _ (fun rest e => hn (List.cons.inj e).1)
          have h2 : normalizeNewlines ['\r'] = ['\n'] := by decide
          simp [h1, h2, normalizeNewlines_cons c R hr]
        | cons y ys =>
          by_cases hy : y = '\n'
          · subst hy
            have := ih ys.length (by simp at hlen; omega) ys rfl
            simp only [List.cons_append, normalizeNewlines_crlf, this]
          · have h1 : normalizeNewlines ('\r' :: (y :: ys ++ c :: R))
                = '\n' :: normalizeNewlines (y :: ys ++ c :: R) :=
              normalizeNewlines_cr _ (fun rest e => hy (List.cons.inj e).1)
            have h2 : normalizeNewlines ('\r' :: y :: ys) = '\n' :: normalizeNewlines (y :: ys) :=
              normalizeNewlines_cr _ (fun rest e => hy (List.cons.inj e).1)
            have := ih (y :: ys).length (by simp at hlen ⊢; omega) (y :: ys) rfl
            rw [List.cons_append, h1, h2, this]
            rfl
      · have := ih xs.length (by simp at hlen; omega) xs rfl
        rw [List.cons_append, normalizeNewlines_cons x _ hx, normalizeNewlines_cons x _ hx, this]
        rfl

/-- Newline normalisation leaves a non-empty run of characters other than
line breaks where it is. -/
theorem normalizeNewlines_append_run (lit : List Char)
    (hlit : ∀ c ∈ lit, c ≠ '\r' ∧ c ≠ '\n') (hne : lit ≠ []) (X R : List Char) :
    normalizeNewlines (X ++ (lit ++ R))
      = normalizeNewlines X ++ (lit ++ normalizeNewlines R) := by
  induction lit generalizing X with
  | nil => exact absurd rfl hne
  | cons l rest ih =>
    have hl := hlit l (by simp)
    rw [List.cons_append, normalizeNewlines_append_cons X _ l hl.1 hl.2]
    by_cases hrest : rest = []
    · subst hrest
      rfl
    · have := ih (fun c hc => hlit c (by simp [hc])) hrest []
      rw [List.nil_append] at this
      rw [this]
      rfl

/-- The fence opening of the stage-0 template survives the trimming. -/
theorem stage0_fence_occurs (host : Host)
    (screen feature comps collections reusable designGuide role : String) :
    occursIn ("```jsx filename:/" ++ role ++ "/components/ComponentName.jsx")
      (jsTrim (stage0Template host screen feature comps collections reusable designGuide
        role)) := by
  have h : occursIn
      (template ["```jsx filename:/", role, "/components/ComponentName.jsx\n"])
      (stage0Template host screen feature comps collections reusable designGuide role) := by
    unfold stage0Template
    exact occursIn_template _ _ 68 rfl
  have e1 : "```jsx filename:/".data = '`' :: "``jsx filename:/".data := by decide
  have e2 : "/components/ComponentName.jsx".data
      = "/components/ComponentName.js".data ++ ['x'] := by decide
  have e3 : "/components/ComponentName.jsx\n".data
      = "/components/ComponentName.jsx".data ++ ['\n'] := by decide
  have hneedle : ("```jsx filename:/" ++ role ++ "/components/ComponentName.jsx").data
      = '`' :: (("``jsx filename:/".data ++ role.data ++ "/components/ComponentName.js".data)
          ++ ['x']) := by
    simp only [String.data_append, e1, e2]
    simp
  have hin : ('`' :: (("``jsx filename:/".data ++ role.data
        ++ "/components/ComponentName.js".data) ++ ['x']))
      <:+: (stage0Template host screen feature comps collections reusable designGuide
        role).data := by
    obtain ⟨a, b, hab⟩ := h
    refine ⟨a, '\n' :: b, ?_⟩
    rw [← hab, template_data]
    simp only [List.flatMap_cons, List.flatMap_nil, e1, e2, e3]
    simp
  unfold occursIn
  rw [hneedle]
  exact infix_trimChars _ _ _ _ (by decide) (by decide) hin

/-- A fence opening that occurs in a text occurs, with the line breaks of its
path normalised, in the text with its line breaks normalised. -/
theorem fence_occurs_normalized (role prompt : String)
    (h : occursIn ("```jsx filename:/" ++ role ++ "/components/ComponentName.jsx") prompt) :
    occursIn ("```jsx filename:/" ++ (⟨normalizeNewlines role.data⟩ : String)
        ++ "/components/ComponentName.jsx")
      ⟨normalizeNewlines prompt.data⟩ := by
  unfold occursIn at h ⊢
  obtain ⟨a, b, hab⟩ := h
  refine ⟨normalizeNewlines a, normalizeNewlines b, ?_⟩
  have h1 : ∀ c ∈ "```jsx filename:/".data, c ≠ '\r' ∧ c ≠ '\n' := by decide
  have h2 : ∀ c ∈ "/components/ComponentName.jsx".data, c ≠ '\r' ∧ c ≠ '\n' := by decide
  have hsplit : prompt.data = a ++ ("```jsx filename:/".data ++
      (role.data ++ ("/components/ComponentName.jsx".data ++ b))) := by
    rw [← hab]
    simp [String.data_append]
  show normalizeNewlines a ++ _ ++ normalizeNewlines b = normalizeNewlines prompt.data
  rw [hsplit, normalizeNewlines_append_run _ h1 (by decide),
    normalizeNewlines_append_run _ h2 (by decide)]
  simp [String.data_append]

/-- What `generatePrompt` leaves in a `textarea` output field when the screen
name is not empty: the trimmed template, with its line breaks normalised. -/
theorem generatePrompt_output (host : Host) (pg : Page) (el : Element)
    (hscreen : safeValue pg "screenName" ≠ "") (hel : getElementById pg "output0" = some el)
    (htag : el.tagName = "TEXTAREA") :
    fieldValue (generatePrompt host pg) "output0"
      = some ⟨normalizeNewlines (jsTrim (stage0Template host (safeValue pg "screenName")
          (safeValue pg "featureDesc") (safeValue pg "components") (safeValue pg "collections")
          (safeValue pg "reusable") (safeValue pg "designGuide")
          (orElse (safeValue pg "role") "admin"))).data⟩ ∧
    (generatePrompt host pg).toasts = pg.toasts ++ [("Prompt generated.", "ok")] := by
  have hno : ∀ s, valueThrows el s = false := by
    intro s
    simp [valueThrows, htag]
  have hgen : ∀ prompt : String,
      assignValue host pg "output0" (.str prompt)
        = some (pg.update "output0" fun e => setValue host e (.str prompt)) := by
    intro prompt
    simp [assignValue, hel, domString, hno]
  have hval : ∀ prompt : String,
      fieldValue (pg.update "output0" fun e => setValue host e (.str prompt)) "output0"
        = some ⟨normalizeNewlines prompt.data⟩ := by
    intro prompt
    unfold fieldValue
    rw [getElementById_update_same pg "output0" (fun e => setValue host e (.str prompt))
      (fun _ => rfl), hel]
    simp [setValue, acceptedValue, htag, domString]
  unfold generatePrompt
  simp only [if_neg hscreen, hel, hgen]
  exact ⟨hval _, rfl⟩

set_option maxRecDepth 1000000 in
/-- C18 as stated fails for `prompt5`: with the default context its fence
openings read `filename:service.js` right after the three backticks, and no
line has the form of three backticks, a language name, a space and
`filename:` (as a line of `prompt2` has): every run of three backticks in it
is directly followed by `filename:` or by a line break, which does not hold
for `prompt2`. -/
theorem prompt5_fence_has_no_language :
    hasTaggedFence (prompt5 (ctx sampleHost (stage2Page "0123456789"))) = false ∧
    occursIn "```filename:service.js" (prompt5 (ctx sampleHost (stage2Page "0123456789"))) ∧
    fencesBare (prompt5 (ctx sampleHost (stage2Page "0123456789"))).data = true ∧
    hasTaggedFence (prompt2 (ctx sampleHost (stage2Page "0123456789"))) = true ∧
    fencesBare (prompt2 (ctx sampleHost (stage2Page "0123456789"))).data = false := by
  decide

set_option maxRecDepth 100000 in
/-- C18 (amended): after `generatePrompt` with a non-empty screen name, the
`textarea` output field holds a prompt that contains a fence opening of three
backticks, the language name `jsx`, one space, the exact token `filename:` and
the path `/ROLE/components/ComponentName.jsx` (the role with its line breaks
normalised, as a `textarea` stores text); the merge prompt built for a
non-empty file list, and `prompt2`, `prompt3` and `prompt4` for every context
contain a fence opening of three backticks, the language name `jsx` (`js` in
`prompt4`), one space, `filename:` and a path.  The fence openings of `prompt5`
carry no language name: the prompt contains three backticks directly followed
by `filename:` and the path, and for every context whose fields embedded by
`prompt5` contain no backtick, every run of three backticks in the prompt is
directly followed by `filename:` or by a line break. -/
theorem prompts_carry_filename_tag (host : Host) (c : Ctx) :
    (∀ (pg : Page) (el : Element), safeValue pg "screenName" ≠ "" →
      getElementById pg "output0" = some el → el.tagName = "TEXTAREA" →
      ∃ text, fieldValue (generatePrompt host pg) "output0" = some text ∧
        (generatePrompt host pg).toasts = pg.toasts ++ [("Prompt generated.", "ok")] ∧
        occursIn ("```jsx filename:/"
            ++ (⟨normalizeNewlines (orElse (safeValue pg "role") "admin").data⟩ : String)
            ++ "/components/ComponentName.jsx") text) ∧
    (∀ (pg after : Page) (text : String), buildPrompt host pg = .ok (after, text) →
      mergeFiles pg ≠ [] → occursIn "```jsx filename:path/to/merged/file.jsx" text) ∧
    occursIn ("```jsx filename:" ++ c.serviceName) (prompt2 c) ∧
    occursIn ("```jsx filename:" ++ c.serviceName) (prompt3 c) ∧
    occursIn ("```js filename:pb_hooks/collections/" ++ c.module) (prompt4 host c) ∧
    occursIn ("```filename:" ++ c.serviceName) (prompt5 c) ∧
    (backtickFree c.project = true → backtickFree c.module = true →
      backtickFree c.serviceName = true → backtickFree c.security = true →
      backtickFree c.dependencies = true → backtickFree c.code = true →
      fencesBare (prompt5 c).data = true) := by
  refine ⟨?_, ?_, ?_, ?_, ?_, ?_, ?_⟩
  · intro pg el hscreen hel htag
    obtain ⟨hval, htoast⟩ := generatePrompt_output host pg el hscreen hel htag
    exact ⟨_, hval, htoast, fence_occurs_normalized _ _ (stage0_fence_occurs host _ _ _ _ _ _ _)⟩
  · intro pg after text hbuild hfiles
    unfold buildPrompt at hbuild
    have hlen : ¬ (mergeFiles pg).length = 0 := by
      simpa [List.length_eq_zero] using hfiles
    cases hn : trimmedValue pg "project-name" with
    | error err => simp [hn] at hbuild
    | ok name =>
      cases he : trimmedValue pg "extra-instructions" with
      | error err => simp [hn, he] at hbuild
      | ok extra =>
        simp only [hn, he, if_neg hlen] at hbuild
        injection hbuild with hbuild
        injection hbuild with _ htext
        rw [← htext]
        apply occursIn_joinLines
        simp only [List.mem_filter, List.mem_append]
        refine ⟨Or.inr ?_, by decide⟩
        decide
  · have h : occursIn (template ["```jsx filename:", c.serviceName]) (prompt2 c) := by
      unfold prompt2
      exact occursIn_template _ _ 25 rfl
    rwa [template_pair] at h
  · have h : occursIn (template ["```jsx filename:", c.serviceName]) (prompt3 c) := by
      unfold prompt3
      exact occursIn_template _ _ 22 rfl
    rwa [template_pair] at h
  · have h : occursIn (template ["```js filename:pb_hooks/collections/", c.module])
        (prompt4 host c) := by
      unfold prompt4
      exact occursIn_template _ _ 52 rfl
    rwa [template_pair] at h
  · have h : occursIn (template ["```filename:", c.serviceName]) (prompt5 c) := by
      unfold prompt5
      exact occursIn_template _ _ 22 rfl
    rwa [template_pair] at h
  · intro hproject hmodule hservice hsecurity hdeps hcode
    have kproject := closedPiece_of_backtickFree _ hproject
    have kmodule := closedPiece_of_backtickFree _ hmodule
    have kservice := closedPiece_of_backtickFree _ hservice
    have ksecurity := closedPiece_of_backtickFree _ hsecurity
    have kdeps := closedPiece_of_backtickFree _ hdeps
    have kcode := closedPiece_of_backtickFree _ hcode
    unfold prompt5
    apply fencesBare_template
    simp only [List.all_cons, List.all_nil, Bool.and_true, Bool.and_eq_true]
    repeat' apply And.intro
    all_goals first
      | assumption
      | decide
      | (split <;> decide)

set_option maxRecDepth 100000 in
/-- Witness for C18: the merge prompt built for the collection `threeFiles`,
the stage-0 prompt generated for the screen `Home`, and `prompt5` for the
default context. -/
theorem prompts_carry_filename_tag_witness :
    (∃ text, buildPrompt sampleHost threeFiles = .ok (threeFiles, text) ∧
      occursIn "```jsx filename:path/to/merged/file.jsx" text) ∧
    (∃ text, fieldValue (generatePrompt sampleHost (stage0Page "Home" "")) "output0" = some text ∧
      occursIn "```jsx filename:/admin/components/ComponentName.jsx" text) ∧
    fencesBare (prompt5 (ctx sampleHost { })).data = true :=
  ⟨⟨_, rfl,
    (prompts_carry_filename_tag sampleHost (ctx sampleHost { })).2.1 threeFiles threeFiles _ rfl
      (by decide)⟩,
   (match (prompts_carry_filename_tag sampleHost (ctx sampleHost { })).1
        (stage0Page "Home" "") (textareaEl "output0" "") (by decide) (by decide) rfl with
    | ⟨text, h1, _, h3⟩ => ⟨text, h1, h3⟩),
   (prompts_carry_filename_tag sampleHost (ctx sampleHost { })).2.2.2.2.2.2
      (by decide) (by decide) (by decide) (by decide) (by decide) (by decide)⟩

/-! ## Statistics of the file collection -/

theorem jsLength_pos_iff (s : String) : 0 < jsLength s ↔ s ≠ "" := by
  obtain ⟨data⟩ := s
  cases data with
  | nil => simp [jsLength]
  | cons c cs =>
    have hne : (⟨c :: cs⟩ : String) ≠ "" := by
      intro h
      have := congrArg String.data h
      simp at this
    have hpos : 0 < utf16Units c := by
      unfold utf16Units
      split <;> omega
    simp only [jsLength, List.map_cons, List.sum_cons]
    constructor
    · intro _; exact hne
    · intro _; omega

/-- The list `files` of `updateStats` and `buildPrompt` holds the counted entries. -/
theorem mergeFiles_eq (pg : Page) :
    mergeFiles pg
      = (countedEntries pg.editors).map fun e => (orElse (jsTrim e.fname) "unnamed", e.content) := by
  unfold mergeFiles countedEntries
  induction pg.editors with
  | nil => rfl
  | cons e rest ih =>
    by_cases he : e.content = ""
    · have h0 : ¬ 0 < jsLength e.content := by
        rw [jsLength_pos_iff]; simpa using he
      simp only [List.map_cons, List.filter_cons]
      simp [he, h0]
      simpa using ih
    · have h0 : 0 < jsLength e.content := (jsLength_pos_iff _).mpr he
      simp only [List.map_cons, List.filter_cons]
      simp [he, h0]
      simpa using ih

theorem foldl_add_length (files : List (String × String)) (start : Nat) :
    files.foldl (fun sum f => sum + jsLength f.2) start
      = start + (files.map fun f => jsLength f.2).sum := by
  induction files generalizing start with
  | nil => simp
  | cons f rest ih =>
    simp only [List.foldl_cons, List.map_cons, List.sum_cons, ih]
    omega

/-- The total `chars` computed by `updateStats` is the sum over the counted entries. -/
theorem chars_eq_charCount (pg : Page) :
    (mergeFiles pg).foldl (fun sum f => sum + jsLength f.2) 0 = charCount pg.editors := by
  rw [foldl_add_length, mergeFiles_eq, List.map_map, Nat.zero_add]
  rfl

theorem mergeFiles_length (pg : Page) :
    (mergeFiles pg).length = (countedEntries pg.editors).length := by
  rw [mergeFiles_eq, List.length_map]

/-- Entries with empty content add nothing to the character count. -/
theorem charCount_all (editors : List Editor) :
    charCount editors = (editors.map fun e => jsLength e.content).sum := by
  unfold charCount countedEntries
  induction editors with
  | nil => rfl
  | cons e rest ih =>
    by_cases he : e.content = ""
    · simp [List.filter_cons, he, jsLength_empty]
      simpa using ih
    · simp [List.filter_cons, he]
      simpa using ih

theorem three_updates (pg : Page) (F1 F2 F3 : Element → Element)
    (h1 : ∀ e, (F1 e).id = e.id) (h2 : ∀ e, (F2 e).id = e.id) (h3 : ∀ e, (F3 e).id = e.id) :
    getElementById (((pg.update "file-count" F1).update "char-count" F2).update
        "token-estimate" F3) "file-count" = (getElementById pg "file-count").map F1 ∧
    getElementById (((pg.update "file-count" F1).update "char-count" F2).update
        "token-estimate" F3) "char-count" = (getElementById pg "char-count").map F2 ∧
    getElementById (((pg.update "file-count" F1).update "char-count" F2).update
        "token-estimate" F3) "token-estimate" = (getElementById pg "token-estimate").map F3 := by
  refine ⟨?_, ?_, ?_⟩
  · rw [getElementById_update_ne _ "token-estimate" "file-count" F3 h3 (by decide),
      getElementById_update_ne _ "char-count" "file-count" F2 h2 (by decide),
      getElementById_update_same _ "file-count" F1 h1]
  · rw [getElementById_update_ne _ "token-estimate" "char-count" F3 h3 (by decide),
      getElementById_update_same _ "char-count" F2 h2,
      getElementById_update_ne _ "file-count" "char-count" F1 h1 (by decide)]
  · rw [getElementById_update_same _ "token-estimate" F3 h3,
      getElementById_update_ne _ "char-count" "token-estimate" F2 h2 (by decide),
      getElementById_update_ne _ "file-count" "token-estimate" F1 h1 (by decide)]

/-- What `updateStats` leaves in the three badges. -/
theorem updateStats_badges (pg : Page) :
    (getElementById (updateStats pg) "file-count"
        = (getElementById pg "file-count").map fun e =>
            { e with textContent := toString (countedEntries pg.editors).length }) ∧
    (getElementById (updateStats pg) "char-count"
        = (getElementById pg "char-count").map fun e =>
            { e with textContent := toString (charCount pg.editors) }) ∧
    (getElementById (updateStats pg) "token-estimate"
        = (getElementById pg "token-estimate").map fun e =>
            { e with
              textContent := toString (tokenEstimate (charCount pg.editors))
              classes :=
                classTokens ("badge " ++ tokenBadge (tokenEstimate (charCount pg.editors))) }) := by
  unfold updateStats
  simp only [chars_eq_charCount, mergeFiles_length]
  exact three_updates pg _ _ _ (fun _ => rfl) (fun _ => rfl) (fun _ => rfl)

theorem tokenEstimate_least (n : Nat) :
    n ≤ 4 * tokenEstimate n ∧ ∀ t, n ≤ 4 * t → tokenEstimate n ≤ t := by
  unfold tokenEstimate
  constructor
  · omega
  · intro t ht
    omega

/-- C13: after `updateStats`, the badge `file-count` shows the number of
entries whose content is non-empty, `char-count` the sum of the content
lengths (UTF-16 code units) of those entries, and `token-estimate` the value
`tokenEstimate` of that sum, which is the least `t` with `4 * t` at least the
sum; entries with empty content add to none of the three. -/
theorem updateStats_statistics (pg : Page) (fileEl charEl tokenEl : Element)
    (hfile : getElementById pg "file-count" = some fileEl)
    (hchar : getElementById pg "char-count" = some charEl)
    (htoken : getElementById pg "token-estimate" = some tokenEl) :
    (getElementById (updateStats pg) "file-count").map (fun el => el.textContent)
      = some (toString (countedEntries pg.editors).length) ∧
    (getElementById (updateStats pg) "char-count").map (fun el => el.textContent)
      = some (toString (charCount pg.editors)) ∧
    (getElementById (updateStats pg) "token-estimate").map (fun el => el.textContent)
      = some (toString (tokenEstimate (charCount pg.editors))) ∧
    charCount pg.editors ≤ 4 * tokenEstimate (charCount pg.editors) ∧
    (∀ t, charCount pg.editors ≤ 4 * t → tokenEstimate (charCount pg.editors) ≤ t) ∧
    charCount pg.editors = (pg.editors.map fun e => jsLength e.content).sum ∧
    (countedEntries pg.editors).length
      = (pg.editors.filter fun e => 0 < jsLength e.content).length := by
  obtain ⟨h1, h2, h3⟩ := updateStats_badges pg
  refine ⟨?_, ?_, ?_, (tokenEstimate_least _).1, (tokenEstimate_least _).2, charCount_all _, ?_⟩
  · rw [h1, hfile]; rfl
  · rw [h2, hchar]; rfl
  · rw [h3, htoken]; rfl
  · unfold countedEntries
    congr 1
    apply List.filter_congr
    intro e _
    have := jsLength_pos_iff e.content
    by_cases he : e.content = ""
    · simp [he, jsLength_empty]
    · simp [he, this.mpr he]

/-- Witness for C13: contents `abcd` and the empty content give the texts
`1`, `4` and `1`. -/
theorem updateStats_statistics_witness :
    (getElementById (updateStats statsPage) "file-count").map (fun el => el.textContent)
        = some "1" ∧
    (getElementById (updateStats statsPage) "char-count").map (fun el => el.textContent)
        = some "4" ∧
    (getElementById (updateStats statsPage) "token-estimate").map (fun el => el.textContent)
        = some "1" :=
  ⟨(updateStats_statistics statsPage { id := "file-count", tagName := "SPAN" }
      { id := "char-count", tagName := "SPAN" }
      { id := "token-estimate", tagName := "SPAN", classes := ["badge"] }
      (by decide) (by decide) (by decide)).1.trans (by decide),
   (updateStats_statistics statsPage { id := "file-count", tagName := "SPAN" }
      { id := "char-count", tagName := "SPAN" }
      { id := "token-estimate", tagName := "SPAN", classes := ["badge"] }
      (by decide) (by decide) (by decide)).2.1.trans (by decide),
   (updateStats_statistics statsPage { id := "file-count", tagName := "SPAN" }
      { id := "char-count", tagName := "SPAN" }
      { id := "token-estimate", tagName := "SPAN", classes := ["badge"] }
      (by decide) (by decide) (by decide)).2.2.1.trans (by decide)⟩

/-! ## Classification of the token estimate -/

/-- C14: with `t = tokenEstimate n` for a character count `n`, the badge
class is `danger` exactly when `t > 32000`, empty (neutral) exactly when
`16000 < t ≤ 32000`, and `ok` exactly when `t ≤ 16000`; `updateStats` gives
the badge `token-estimate` the classes `badge` and that class.  The examples
of the specification and the two boundary values come out as stated. -/
theorem tokenBadge_bands (n : Nat) :
    (tokenBadge (tokenEstimate n) = "danger" ↔ 32000 < tokenEstimate n) ∧
    (tokenBadge (tokenEstimate n) = "" ↔ 16000 < tokenEstimate n ∧ tokenEstimate n ≤ 32000) ∧
    (tokenBadge (tokenEstimate n) = "ok" ↔ tokenEstimate n ≤ 16000) ∧
    (∀ (pg : Page) (el : Element), charCount pg.editors = n →
      getElementById pg "token-estimate" = some el →
      (getElementById (updateStats pg) "token-estimate").map (fun e => e.classes)
        = some (if 32000 < tokenEstimate n then ["badge", "danger"]
            else if 16000 < tokenEstimate n then ["badge"] else ["badge", "ok"])) ∧
    (tokenEstimate 16000 = 4000 ∧ tokenBadge 4000 = "ok") ∧
    (tokenEstimate 64001 = 16001 ∧ tokenBadge 16001 = "") ∧
    (tokenEstimate 128001 = 32001 ∧ tokenBadge 32001 = "danger") ∧
    tokenBadge 16000 = "ok" ∧
    tokenBadge 32000 = "" := by
  have hd1 : ("danger" : String) ≠ "" := by decide
  have hd2 : ("danger" : String) ≠ "ok" := by decide
  have hd3 : ("" : String) ≠ "ok" := by decide
  have hbands : ∀ t : Nat,
      (tokenBadge t = "danger" ↔ 32000 < t) ∧
      (tokenBadge t = "" ↔ 16000 < t ∧ t ≤ 32000) ∧
      (tokenBadge t = "ok" ↔ t ≤ 16000) := by
    intro t
    unfold tokenBadge
    by_cases h1 : t > 32000
    · rw [if_pos h1]
      refine ⟨⟨fun _ => h1, fun _ => rfl⟩, ⟨fun h => absurd h hd1, fun h => by omega⟩,
        ⟨fun h => absurd h hd2, fun h => by omega⟩⟩
    · by_cases h2 : t > 16000
      · rw [if_neg h1, if_pos h2]
        refine ⟨⟨fun h => absurd h.symm hd1, fun h => by omega⟩,
          ⟨fun _ => ⟨h2, by omega⟩, fun _ => rfl⟩, ⟨fun h => absurd h hd3, fun h => by omega⟩⟩
      · rw [if_neg h1, if_neg h2]
        refine ⟨⟨fun h => absurd h.symm hd2, fun h => by omega⟩,
          ⟨fun h => absurd h.symm hd3, fun h => by omega⟩, ⟨fun _ => by omega, fun _ => rfl⟩⟩
  refine ⟨(hbands _).1, (hbands _).2.1, (hbands _).2.2, ?_, by decide, by decide, by decide,
    by decide, by decide⟩
  intro pg el hn hel
  rw [(updateStats_badges pg).2.2, hel, hn]
  simp only [Option.map_some', Option.some.injEq]
  unfold tokenBadge
  by_cases h1 : tokenEstimate n > 32000
  · simp only [if_pos h1]
    decide
  · by_cases h2 : tokenEstimate n > 16000
    · simp only [if_neg h1, if_pos h2]
      decide
    · simp only [if_neg h1, if_neg h2]
      decide

/-- Witness for C14: the collection with contents `abcd` and the empty
content (4 characters, estimate 1) gets the classes `badge` and `ok`. -/
theorem tokenBadge_bands_witness :
    (getElementById (updateStats statsPage) "token-estimate").map (fun e => e.classes)
      = some ["badge", "ok"] :=
  ((tokenBadge_bands 4).2.2.2.1 statsPage
    { id := "token-estimate", tagName := "SPAN", classes := ["badge"] } (by decide)
    (by decide)).trans (by decide)

/-! ## The merge prompt -/

theorem trimmedValue_of_readable (pg : Page) (id : String) (h : readableOption pg id) :
    ∃ r, trimmedValue pg id = .ok r := by
  unfold trimmedValue
  cases hel : getElementById pg id with
  | none => exact ⟨none, rfl⟩
  | some el =>
    cases hv : el.value with
    | none => exact absurd hv (h el hel)
    | some v => exact ⟨some (jsTrim v), by simp [hv]⟩

theorem countedEntries_eq_nil_iff (editors : List Editor) :
    countedEntries editors = [] ↔ ∀ e ∈ editors, e.content = "" := by
  unfold countedEntries
  rw [List.filter_eq_nil_iff]
  constructor
  · intro h e he
    simpa using h e he
  · intro h e he
    simpa using h e he

theorem mergeFiles_length_zero_iff (pg : Page) :
    (mergeFiles pg).length = 0 ↔ ∀ e ∈ pg.editors, e.content = "" := by
  rw [mergeFiles_length, List.length_eq_zero, countedEntries_eq_nil_iff]

theorem joinLines_head_ne_sentinel (rest : List String) :
    joinLines ("You are an expert senior software engineer and code reviewer." :: rest)
      ≠ "No files provided." := by
  intro h
  have hd := congrArg (fun s : String => s.data.head?) h
  cases rest with
  | nil => exact absurd h (by decide)
  | cons t rest' =>
    simp only [joinLines, String.data_append, List.append_assoc] at hd
    rw [List.head?_append_of_ne_nil _ (by decide)] at hd
    exact absurd hd (by decide)

theorem buildPrompt_of_files (host : Host) (pg : Page) (name extra : Option String)
    (hn : trimmedValue pg "project-name" = .ok name)
    (he : trimmedValue pg "extra-instructions" = .ok extra)
    (hlen : ¬ (mergeFiles pg).length = 0) :
    buildPrompt host pg
      = .ok (pg, joinLines ((optionHead host pg name extra ++ ["--- BEGIN FILES ---"]
          ++ fileBlocks (mergeFiles pg) ++ ["--- END FILES ---"] ++ promptTail).filter
            fun l => l ≠ "")) := by
  simp only [buildPrompt, hn, he, if_neg hlen]

/-- C15: when the option controls `buildPrompt` trims are text controls (or
absent), `buildPrompt` does not raise; if no entry has non-empty content (in
particular for the empty collection) it reports an error and returns exactly
`No files provided.`, and if some entry has non-empty content it returns a
text other than that sentinel. -/
theorem buildPrompt_sentinel (host : Host) (pg : Page)
    (hname : readableOption pg "project-name")
    (hextra : readableOption pg "extra-instructions") :
    ((∀ e ∈ pg.editors, e.content = "") →
      buildPrompt host pg
        = .ok (toast pg "Add at least one file to merge." "error", "No files provided.")) ∧
    ((∃ e ∈ pg.editors, e.content ≠ "") →
      ∃ text, buildPrompt host pg = .ok (pg, text) ∧ text ≠ "No files provided.") := by
  obtain ⟨name, hn⟩ := trimmedValue_of_readable pg "project-name" hname
  obtain ⟨extra, he⟩ := trimmedValue_of_readable pg "extra-instructions" hextra
  constructor
  · intro hempty
    have hlen : (mergeFiles pg).length = 0 := (mergeFiles_length_zero_iff pg).mpr hempty
    simp only [buildPrompt, hn, he, hlen, if_true]
  · intro hsome
    have hlen : ¬ (mergeFiles pg).length = 0 := by
      rw [mergeFiles_length_zero_iff]
      obtain ⟨e, hmem, hne⟩ := hsome
      exact fun hall => hne (hall e hmem)
    rw [buildPrompt_of_files host pg name extra hn he hlen]
    refine ⟨_, rfl, ?_⟩
    simp only [optionHead, promptHead, List.cons_append, List.filter_cons]
    rw [if_pos (by decide)]
    exact joinLines_head_ne_sentinel _

/-- Witness for C15: the empty collection gives the sentinel, the collection
`threeFiles` a prompt. -/
theorem buildPrompt_sentinel_witness :
    buildPrompt sampleHost mergePage
        = .ok (toast mergePage "Add at least one file to merge." "error", "No files provided.") ∧
    ∃ text, buildPrompt sampleHost threeFiles = .ok (threeFiles, text) ∧
      text ≠ "No files provided." :=
  ⟨(buildPrompt_sentinel sampleHost mergePage (by decide) (by decide)).1 (by decide),
   (buildPrompt_sentinel sampleHost threeFiles (by decide) (by decide)).2 (by decide)⟩

theorem fileBlock_ne_empty (i : Nat) (f : String × String) : fileBlock i f ≠ "" := by
  intro h
  have hd := congrArg (fun s : String => s.data.head?) h
  simp only [fileBlock, String.data_append, List.append_assoc] at hd
  rw [List.head?_append_of_ne_nil _ (by decide)] at hd
  exact absurd hd (by decide)

theorem filter_fileBlocks (files : List (String × String)) :
    (fileBlocks files).filter (fun l => l ≠ "") = fileBlocks files := by
  apply List.filter_eq_self.mpr
  intro l hl
  unfold fileBlocks at hl
  obtain ⟨p, _, hp⟩ := List.mem_map.mp hl
  rw [← hp]
  simpa using fileBlock_ne_empty p.1 p.2

theorem enumFrom_blocks (editors : List Editor) (k : Nat) :
    (((countedEntries editors).map fun e =>
        (orElse (jsTrim e.fname) "unnamed", e.content)).enumFrom k).map
        (fun p => fileBlock p.1 p.2)
      = numberedBlocks (k + 1) editors := by
  induction editors generalizing k with
  | nil => rfl
  | cons e rest ih =>
    by_cases he : e.content = ""
    · have hc : countedEntries (e :: rest) = countedEntries rest := by
        simp [countedEntries, List.filter_cons, he]
      rw [hc, ih k]
      simp [numberedBlocks, he]
    · have hc : countedEntries (e :: rest) = e :: countedEntries rest := by
        simp [countedEntries, List.filter_cons, he]
      rw [hc]
      simp only [List.map_cons, List.enumFrom_cons, numberedBlocks, if_neg he]
      rw [ih (k + 1)]
      rfl

/-- The blocks `buildPrompt` assembles are the blocks the specification describes. -/
theorem fileBlocks_eq_numberedBlocks (pg : Page) :
    fileBlocks (mergeFiles pg) = numberedBlocks 1 pg.editors := by
  rw [mergeFiles_eq]
  exact enumFrom_blocks pg.editors 0

theorem numberedBlocks_enum (editors : List Editor) (k : Nat) :
    numberedBlocks k editors
      = ((countedEntries editors).enumFrom k).map fun p =>
          "### FILE " ++ toString p.1 ++ ": " ++ shownName p.2 ++ " ###\n" ++ p.2.content := by
  induction editors generalizing k with
  | nil => rfl
  | cons e rest ih =>
    by_cases he : e.content = ""
    · have hc : countedEntries (e :: rest) = countedEntries rest := by
        simp [countedEntries, List.filter_cons, he]
      rw [hc, ← ih k]
      simp [numberedBlocks, he]
    · have hc : countedEntries (e :: rest) = e :: countedEntries rest := by
        simp [countedEntries, List.filter_cons, he]
      rw [hc]
      simp only [List.map_cons, List.enumFrom_cons, numberedBlocks, if_neg he]
      rw [ih (k + 1)]

/-- C16: when some entry has non-empty content, the lines of the merge prompt
are the instruction lines, the line `--- BEGIN FILES ---`, the file blocks,
the line `--- END FILES ---` and the closing lines, joined by line breaks.
The file blocks are those of the entries with non-empty content in list
order: the entry at position `j` among them (counted from 0) gives
`### FILE j+1: name ###`, a line break and its content, where `name` is the
trimmed file name, or `unnamed` when that is empty; entries with empty
content give no block and leave no gap in the numbering. -/
theorem buildPrompt_file_assembly (host : Host) (pg : Page) (name extra : Option String)
    (hname : trimmedValue pg "project-name" = .ok name)
    (hextra : trimmedValue pg "extra-instructions" = .ok extra)
    (hsome : ∃ e ∈ pg.editors, e.content ≠ "") :
    buildPrompt host pg
      = .ok (pg, joinLines ((optionHead host pg name extra).filter (fun l => l ≠ "")
          ++ ["--- BEGIN FILES ---"] ++ numberedBlocks 1 pg.editors
          ++ ["--- END FILES ---"] ++ promptTail)) ∧
    numberedBlocks 1 pg.editors
      = ((countedEntries pg.editors).enumFrom 1).map (fun p =>
          "### FILE " ++ toString p.1 ++ ": " ++ shownName p.2 ++ " ###\n" ++ p.2.content) ∧
    (numberedBlocks 1 pg.editors).length = (countedEntries pg.editors).length := by
  have hlen : ¬ (mergeFiles pg).length = 0 := by
    rw [mergeFiles_length_zero_iff]
    obtain ⟨e, hmem, hne⟩ := hsome
    exact fun hall => hne (hall e hmem)
  have htail : promptTail.filter (fun l => l ≠ "") = promptTail := by decide
  refine ⟨?_, numberedBlocks_enum _ _, ?_⟩
  · have hbegin : ["--- BEGIN FILES ---"].filter (fun l => l ≠ "") = ["--- BEGIN FILES ---"] := by
      decide
    have hend : ["--- END FILES ---"].filter (fun l => l ≠ "") = ["--- END FILES ---"] := by
      decide
    rw [buildPrompt_of_files host pg name extra hname hextra hlen]
    rw [List.filter_append, List.filter_append, List.filter_append, List.filter_append,
      filter_fileBlocks, htail, hbegin, hend, fileBlocks_eq_numberedBlocks]
  · rw [numberedBlocks_enum]
    simp

/-- Witness for C16: the collection `threeFiles` gives the blocks of `a.js`
and of the entry with a blank name, numbered 1 and 2. -/
theorem buildPrompt_file_assembly_witness :
    numberedBlocks 1 threeFiles.editors
        = ["### FILE 1: a.js ###\nabcd", "### FILE 2: unnamed ###\nz"] ∧
    buildPrompt sampleHost threeFiles
      = .ok (threeFiles, joinLines ((optionHead sampleHost threeFiles none none).filter
          (fun l => l ≠ "") ++ ["--- BEGIN FILES ---"] ++ numberedBlocks 1 threeFiles.editors
          ++ ["--- END FILES ---"] ++ promptTail)) :=
  ⟨by decide,
   (buildPrompt_file_assembly sampleHost threeFiles none none rfl rfl (by decide)).1⟩

/-! ## Ids of the file entries -/

theorem mem_generatedIds (host : Host) (pg : Page) (id : String) :
    id ∈ generatedIds host pg ↔ ∃ k, k < pg.randomCalls ∧ id = "f" ++ host.random k := by
  unfold generatedIds
  simp only [List.mem_map, List.mem_range]
  constructor
  · rintro ⟨k, hk, rfl⟩
    exact ⟨k, hk, rfl⟩
  · rintro ⟨k, hk, rfl⟩
    exact ⟨k, hk, rfl⟩

theorem id_text_injective (a b : String) (h : "f" ++ a = "f" ++ b) : a = b := by
  have hd := congrArg String.data h
  simp only [String.data_append, List.append_cancel_left_eq] at hd
  exact String.ext hd

/-- The id `addFile` is about to generate has not been generated before,
when the text drawn for it differs from the texts drawn so far. -/
theorem next_id_fresh (host : Host) (pg : Page)
    (hnew : ∀ i, i < pg.randomCalls → host.random i ≠ host.random pg.randomCalls) :
    "f" ++ host.random pg.randomCalls ∉ generatedIds host pg := by
  rw [mem_generatedIds]
  rintro ⟨k, hk, hid⟩
  exact hnew k hk (id_text_injective _ _ hid).symm

/-- What `addFile` does to the collection and to the count of random calls. -/
theorem addFile_effect (host : Host) (name content : JsVal) (pg : Page) :
    (addFile host name content pg).1.randomCalls = pg.randomCalls + 1 ∧
    (((addFile host name content pg).1.editors = pg.editors ∧
        (addFile host name content pg).2 = none) ∨
      ∃ e : Editor, e.id = "f" ++ host.random pg.randomCalls ∧
        (addFile host name content pg).1.editors = pg.editors ++ [e] ∧
        (addFile host name content pg).2 = some ("f" ++ host.random pg.randomCalls)) := by
  unfold addFile
  dsimp only
  split
  · exact ⟨rfl, Or.inl ⟨rfl, rfl⟩⟩
  · exact ⟨rfl, Or.inr ⟨_, rfl, rfl, rfl⟩⟩

/-- Every operation keeps the entries' ids those of pairwise different calls
of the random source, whatever the source gives. -/
theorem applyOp_keeps_calls (host : Host) (pg : Page) (op : FileOp) (ks : List Nat)
    (h : idsFromCalls host pg ks) : ∃ ks', idsFromCalls host (applyOp host pg op) ks' := by
  obtain ⟨hpair, hlt, hids⟩ := h
  cases op with
  | add name content =>
    obtain ⟨hcalls, hed⟩ := addFile_effect host name content pg
    show ∃ ks', idsFromCalls host (addFile host name content pg).1 ks'
    unfold idsFromCalls
    rcases hed with ⟨hsame, _⟩ | ⟨e, hid, happ, _⟩
    · refine ⟨ks, hpair, fun k hk => ?_, ?_⟩
      · have := hlt k hk
        omega
      · rw [hsame]
        exact hids
    · refine ⟨ks ++ [pg.randomCalls], ?_, ?_, ?_⟩
      · rw [List.pairwise_append]
        refine ⟨hpair, List.pairwise_singleton _ _, ?_⟩
        intro a ha b hb
        simp only [List.mem_singleton] at hb
        rw [hb]
        exact hlt a ha
      · intro k hk
        rcases List.mem_append.mp hk with h1 | h1
        · have := hlt k h1
          omega
        · simp only [List.mem_singleton] at h1
          omega
      · rw [happ, List.map_append, List.map_append, hids]
        simp [hid]
  | remove row id =>
    show ∃ ks', idsFromCalls host (removeClick host row id pg) ks'
    have hed : (removeClick host row id pg).editors = pg.editors.filter (fun e => e.id ≠ id) :=
      rfl
    have hcalls : (removeClick host row id pg).randomCalls = pg.randomCalls := rfl
    unfold idsFromCalls
    refine ⟨ks.filter (fun k => "f" ++ host.random k ≠ id),
      hpair.sublist (List.filter_sublist _), fun k hk => ?_, ?_⟩
    · rw [hcalls]
      exact hlt k (List.mem_of_mem_filter hk)
    · rw [hed]
      have h1 : (pg.editors.filter (fun e => e.id ≠ id)).map (fun e => e.id)
          = (pg.editors.map fun e => e.id).filter (fun x => x ≠ id) := by
        rw [List.filter_map]
        rfl
      have h2 : (ks.filter (fun k => "f" ++ host.random k ≠ id)).map
            (fun k => "f" ++ host.random k)
          = (ks.map fun k => "f" ++ host.random k).filter (fun x => x ≠ id) := by
        rw [List.filter_map]
        rfl
      rw [h1, h2, hids]
  | clear confirmed =>
    show ∃ ks', idsFromCalls host (clearClick confirmed pg) ks'
    cases confirmed with
    | false => exact ⟨ks, hpair, hlt, hids⟩
    | true =>
      have hed : (clearClick true pg).editors = [] := rfl
      unfold idsFromCalls
      refine ⟨[], List.Pairwise.nil, fun k hk => by simp at hk, ?_⟩
      rw [hed]
      rfl

theorem runOps_keeps_calls (host : Host) (ops : List FileOp) (pg : Page) (ks : List Nat)
    (h : idsFromCalls host pg ks) : ∃ ks', idsFromCalls host (runOps host pg ops) ks' := by
  unfold runOps
  induction ops generalizing pg ks with
  | nil => exact ⟨ks, h⟩
  | cons op rest ih =>
    rw [List.foldl_cons]
    obtain ⟨ks1, h1⟩ := applyOp_keeps_calls host pg op ks h
    exact ih _ ks1 h1

/-- Ids of pairwise different calls are pairwise distinct exactly when the
texts drawn at these calls are. -/
theorem nodup_ids_iff (host : Host) (ks : List Nat) :
    (ks.map fun k => "f" ++ host.random k).Nodup ↔ (ks.map host.random).Nodup := by
  have hinj : Function.Injective (fun r : String => "f" ++ r) :=
    fun a b hab => id_text_injective a b hab
  have hmap : (ks.map fun k => "f" ++ host.random k)
      = (ks.map host.random).map (fun r : String => "f" ++ r) := by
    rw [List.map_map]
    rfl
  rw [hmap, List.nodup_map_iff hinj]

/-- Texts drawn at pairwise different calls among the first `n` are pairwise
distinct when the first `n` calls gave pairwise distinct texts. -/
theorem nodup_of_distinctCalls (host : Host) (n : Nat) (ks : List Nat)
    (hpair : ks.Pairwise (fun a b => a < b)) (hlt : ∀ k ∈ ks, k < n)
    (hd : distinctCalls host n) : (ks.map host.random).Nodup := by
  unfold List.Nodup
  rw [List.pairwise_map]
  refine List.Pairwise.imp_of_mem ?_ hpair
  intro a b _ hb hab
  exact hd b (hlt b hb) a hab

set_option maxRecDepth 100000 in
/-- C11 as stated fails: the claim is for every sequence of values of the id
generator, and nothing in the script compares a new id with the ids in use.
When the random source gives the same text twice, two calls of `addFile` on
the empty collection leave two entries with the same id. -/
theorem addFile_repeated_random_gives_equal_ids :
    mergePage.editors = [] ∧
    ((runOps repeatingHost mergePage
        [.add (.str "a.js") (.str "x"), .add (.str "b.js") (.str "y")]).editors.map
      fun e => (e.id, e.fname)) = [("fabc1234", "a.js"), ("fabc1234", "b.js")] ∧
    ¬ ((runOps repeatingHost mergePage
        [.add (.str "a.js") (.str "x"), .add (.str "b.js") (.str "y")]).editors.map
      fun e => e.id).Nodup := by
  decide

/-- C11 (amended): in every state reached from an empty collection by any
sequence of `addFile`, remove and clear operations, whatever the id generator
gives, the entries carry the ids `"f" + text` of pairwise different calls `ks`
of the generator made in the session, in the order of the calls; so their ids
are pairwise distinct exactly when the texts drawn at these calls are, each id
was generated earlier in the session, and the ids are pairwise distinct when
the generator has given no text twice in the session so far.  The id `addFile`
gives to a new entry is `"f"` and the next text drawn; when the session
including this draw has no text twice, it differs from every id generated
earlier in the session and from the id of every entry. -/
theorem file_ids_distinct (host : Host) (start : Page) (hempty : start.editors = [])
    (ops : List FileOp) :
    (∃ ks : List Nat, ks.Pairwise (fun a b => a < b) ∧
      (∀ k ∈ ks, k < (runOps host start ops).randomCalls) ∧
      ((runOps host start ops).editors.map fun e => e.id)
        = ks.map (fun k => "f" ++ host.random k) ∧
      (((runOps host start ops).editors.map fun e => e.id).Nodup
        ↔ (ks.map host.random).Nodup)) ∧
    (distinctCalls host (runOps host start ops).randomCalls →
      ((runOps host start ops).editors.map fun e => e.id).Nodup) ∧
    (∀ e ∈ (runOps host start ops).editors, e.id ∈ generatedIds host (runOps host start ops)) ∧
    (∀ (name content : JsVal) (id : String),
      (addFile host name content (runOps host start ops)).2 = some id →
      id = "f" ++ host.random (runOps host start ops).randomCalls ∧
      (distinctCalls host ((runOps host start ops).randomCalls + 1) →
        id ∉ generatedIds host (runOps host start ops) ∧
        ∀ e ∈ (runOps host start ops).editors, e.id ≠ id)) := by
  have hstart : idsFromCalls host start [] := by
    unfold idsFromCalls
    rw [hempty]
    exact ⟨List.Pairwise.nil, fun k hk => by simp at hk, rfl⟩
  obtain ⟨ks, hpair, hlt, hids⟩ := runOps_keeps_calls host ops start [] hstart
  have hgen : ∀ e ∈ (runOps host start ops).editors,
      e.id ∈ generatedIds host (runOps host start ops) := by
    intro e he
    have hmem : e.id ∈ (runOps host start ops).editors.map fun e => e.id :=
      List.mem_map.mpr ⟨e, he, rfl⟩
    rw [hids] at hmem
    obtain ⟨k, hk, hke⟩ := List.mem_map.mp hmem
    rw [mem_generatedIds]
    exact ⟨k, hlt k hk, hke.symm⟩
  refine ⟨⟨ks, hpair, hlt, hids, ?_⟩, ?_, hgen, ?_⟩
  · rw [hids]
    exact nodup_ids_iff host ks
  · intro hd
    rw [hids, nodup_ids_iff]
    exact nodup_of_distinctCalls host _ ks hpair hlt hd
  · intro name content id hid
    obtain ⟨_, hed⟩ := addFile_effect host name content (runOps host start ops)
    have hideq : id = "f" ++ host.random (runOps host start ops).randomCalls := by
      rcases hed with ⟨_, hnone⟩ | ⟨_, _, _, hsome⟩
      · rw [hnone] at hid
        cases hid
      · rw [hsome] at hid
        exact (Option.some.inj hid).symm
    refine ⟨hideq, fun hd => ?_⟩
    have hfresh := next_id_fresh host (runOps host start ops)
      (fun i hi => hd _ (Nat.lt_succ_self _) i hi)
    rw [hideq]
    exact ⟨hfresh, fun e he heq => hfresh (heq ▸ hgen e he)⟩

set_option maxRecDepth 100000 in
/-- Witness for C11: two files are added, the first is removed and a third
is added, with a random source that gives texts of at most seven characters
and repeats itself after eight calls; the three calls of the session gave
different texts. -/
theorem file_ids_distinct_witness :
    cyclicHost.random 0 = cyclicHost.random 8 ∧
    ((runOps cyclicHost mergePage
        [.add (.str "a.js") (.str "x"), .add (.str "b.js") (.str "y"), .remove 0 "f",
         .add (.str "c.js") (.str "z")]).editors.map fun e => e.id) = ["fa", "faa"] ∧
    ((runOps cyclicHost mergePage
        [.add (.str "a.js") (.str "x"), .add (.str "b.js") (.str "y"), .remove 0 "f",
         .add (.str "c.js") (.str "z")]).editors.map fun e => e.id).Nodup :=
  ⟨by decide, by decide,
   (file_ids_distinct cyclicHost mergePage rfl
      [.add (.str "a.js") (.str "x"), .add (.str "b.js") (.str "y"), .remove 0 "f",
       .add (.str "c.js") (.str "z")]).2.1 (by decide)⟩

/-! ## First activation of the merge builder -/

set_option maxRecDepth 100000 in
/-- C12 fails on the code: `initMergeBuilder` runs the loop
`files.forEach((f) => addFile(f.name, f.content))` before `window.addFile` is
assigned, so the first callback throws and the `catch` block swallows it.
With the files `a.js` and `b.js` persisted, the collection after the first
initialization (also through `activateTab("p1")`) holds only the default
entry, and `saveFiles` has overwritten the persisted list with it.  With
nothing persisted the collection is the one default entry, as claimed. -/
theorem initMergeBuilder_drops_saved_files :
    savedFilesPage.mergeBuilderInitialized = false ∧
    getItem savedFilesPage mergeFilesKey = some savedFilesText ∧
    savedFilesText = sampleHost.stringify (.arr
      [.obj [("name", .str "a.js"), ("content", .str "x")],
       .obj [("name", .str "b.js"), ("content", .str "y")]]) ∧
    ((sampleHost.parse savedFilesText).map fun files =>
        [((files.get "0").get "name").asString, ((files.get "0").get "content").asString,
         ((files.get "1").get "name").asString, ((files.get "1").get "content").asString])
      = some [some "a.js", some "x", some "b.js", some "y"] ∧
    (initMergeBuilder sampleHost savedFilesPage).editors = [defaultEntry] ∧
    (activateTab sampleHost "p1" savedFilesPage).editors = [defaultEntry] ∧
    getItem (initMergeBuilder sampleHost savedFilesPage) mergeFilesKey
      = some (sampleHost.stringify (.arr
          [.obj [("name", .str "src/index.js"),
                 ("content", .str "// Add files to begin merging\n")]])) ∧
    (initMergeBuilder sampleHost mergePage).editors = [defaultEntry] := by
  decide

end Pipeline
